import Mathlib

/-!
Verification development for the Roblox donation-asset aggregation endpoint
(`api/get-donation-asset.js`).

The JavaScript source is shallowly embedded: pure helper functions become Lean
functions; the stateful orchestration (fault accumulation, caches, retry loops)
becomes explicit state passing; every upstream HTTP exchange is abstracted as an
oracle argument (a function from the call's identifying data to the observed
response), since the network itself is outside the program.  JS numbers are
modeled as `Rat` (the program only ever handles finite numbers after its
`Number.isFinite` guards; non-finite values are represented by the
`JsVal.other` constructor and by `Option` results).  Real-time sleeps
(`sleep`, jitter delays) do not affect any returned value and are modeled as
no-ops, except that the retry loop records the backoff durations it would
sleep, so the backoff schedule is itself a verifiable output.
-/

namespace DonationAsset

/-- JS `String.prototype.trim`, modeled structurally on the character list so
that proofs can evaluate it (Lean's own `String.trim` uses well-founded
position recursion, which the kernel cannot unfold). -/
def jsTrim (s : String) : String :=
  ⟨((s.data.dropWhile Char.isWhitespace).reverse.dropWhile
      Char.isWhitespace).reverse⟩

/-- JS `String.prototype.toLowerCase` on the ASCII range, modeled structurally
on the character list for the same evaluability reason. -/
def jsToLower (s : String) : String := ⟨s.data.map Char.toLower⟩

/-- Model of a JavaScript value as it appears in parsed JSON / query fields.
`num` carries a finite number (ℚ), `other` covers objects, arrays and
non-finite numbers, for which every guard in the source
(`typeof x === "string"`, `typeof x === "number" && Number.isFinite(x)`,
`x === true`) evaluates to false. -/
inductive JsVal where
  | num (q : Rat)
  | str (s : String)
  | boolean (b : Bool)
  | jsNull
  | undef
  | other
deriving DecidableEq, Repr

/-- Fault record pushed onto the handler's `errors` array.  The free-form
`context` bag of the source is diagnostic only and is not modeled; the claims
reference only the `step` tag and the `message`. -/
structure Fault where
  step : String
  message : String
deriving DecidableEq, Repr

/-- JS-object lookup on an insertion-ordered association list (the embedding of
a plain JS object / `Map`). -/
def objGet [DecidableEq κ] (o : List (κ × α)) (k : κ) : Option α :=
  match o with
  | [] => none
  | (k', v) :: rest => if k' = k then some v else objGet rest k

/-- JS-object write `o[k] = v`: replaces in place if the key exists (JS keeps
the original insertion position), otherwise appends. -/
def objSet [DecidableEq κ] (o : List (κ × α)) (k : κ) (v : α) : List (κ × α) :=
  match o with
  | [] => [(k, v)]
  | (k', v') :: rest => if k' = k then (k', v) :: rest else (k', v') :: objSet rest k v

/-- `Set.add` on an insertion-ordered list (JS `Set` semantics: ignore
duplicates, keep first-insertion order). -/
def setAdd [DecidableEq α] (l : List α) (a : α) : List α :=
  if a ∈ l then l else l ++ [a]

/-- Helper for `dedupList`: keeps the elements not already seen, in order. -/
def dedupGo [DecidableEq α] (seen : List α) : List α → List α
  | [] => []
  | a :: rest => if a ∈ seen then dedupGo seen rest else a :: dedupGo (a :: seen) rest

/-- `Array.from(new Set(xs))`: first-occurrence deduplication preserving
order. -/
def dedupList [DecidableEq α] (l : List α) : List α := dedupGo [] l

/-- Truncation toward zero, the semantics of JS `Math.trunc` on a finite
number. -/
def jsTrunc (q : Rat) : Int :=
  if q < 0 then -(Rat.floor (-q)) else Rat.floor q

-- ---- constants from the source ----

def ALLOWED_HOSTS : List String :=
  ["apis.roblox.com", "catalog.roblox.com", "games.roblox.com"]

def MAX_ATTEMPTS : Nat := 4
def RETRY_BASE_DELAY_MS : Int := 600
def RETRY_MAX_DELAY_MS : Int := 8000
def DEFAULTS_concurrency : Nat := 5
def DEFAULTS_catalogBatchSize : Nat := 50
def INVENTORY_ASSET_TYPES : List String :=
  ["CLASSIC_TSHIRT", "CLASSIC_SHIRT", "CLASSIC_PANTS"]
def ASSET_LIST_KEYS : List String := "GAMEPASS" :: INVENTORY_ASSET_TYPES

/-- `clampInt(n, min, max)` from the source; `Math.trunc` is the identity on
the `Int` inputs that reach it in the modeled call sites. -/
def clampInt (n lo hi : Int) : Int := max lo (min hi n)

/-- `toInt(value)` from the source.  `numOf` is the JS `Number : string → number`
primitive restricted to the finite case (`none` = `NaN`/`±Infinity`); it is an
oracle parameter because JS numeric-literal parsing is a platform primitive,
not code of this repository.  The result `none` models `NaN`. -/
def toInt (v : JsVal) (numOf : String → Option Rat) : Option Int :=
  match v with
  | .num q => some (jsTrunc q)
  | .str s =>
    let t := jsTrim s
    if t = "" then none
    else
      match numOf t with
      | some q => some (jsTrunc q)
      | none => none
  | _ => none

/-- `clamp(n, min, max)` from the source (no truncation). -/
def clamp (n lo hi : Int) : Int := max lo (min hi n)

/-- `parseBool(value, defaultValue)` from the source.  For the `num` case the
source stringifies the number; only the decimal strings "1" and "0" are in the
recognized sets, so finite numbers map through their JS decimal rendering. -/
def parseBool (v : JsVal) (dflt : Bool) : Bool :=
  match v with
  | .jsNull => dflt
  | .undef => dflt
  | .boolean b => b
  | .str s =>
    let t := jsToLower (jsTrim s)
    if t = "true" ∨ t = "1" ∨ t = "yes" ∨ t = "y" then true
    else if t = "false" ∨ t = "0" ∨ t = "no" ∨ t = "n" then false
    else dflt
  | .num q =>
    if q = 1 then true else if q = 0 then false else dflt
  | .other => dflt

/-- `getNextPageToken(obj)` from the source, applied to the `nextPageToken`
field (`none` models `null`/`undefined`). -/
def getNextPageToken (t : Option String) : Option String :=
  match t with
  | none => none
  | some s =>
    let s2 := jsTrim (toString s)
    if s2.length > 0 then some s2 else none

/-- `parseRobuxPrice(value)` from the source: a finite number passes through, a
non-blank string goes through JS `Number` (the `numOf` oracle), everything else
is `null`. -/
def parseRobuxPrice (v : JsVal) (numOf : String → Option Rat) : Option Rat :=
  match v with
  | .num q => some q
  | .str s =>
    let t := jsTrim s
    if t = "" then none
    else
      match numOf t with
      | some n => some n
      | none => none
  | _ => none

/-- Asset entry as built by `makeAssetEntry`.  The `String(x || "")` /
`Number(x) || 0` coercions of the source are identities on the
already-string/already-number arguments every call site passes. -/
structure AssetEntry where
  AssetName : String
  AssetType : String
  AssetTypeId : Int
  AssetPrice : Rat
deriving DecidableEq, Repr

/-- `makeAssetEntry(assetName, assetType, assetTypeId, assetPrice)` from the
source. -/
def makeAssetEntry (assetName : String) (assetType : String)
    (assetTypeId : Int) (assetPrice : Rat) : AssetEntry :=
  { AssetName := assetName, AssetType := assetType,
    AssetTypeId := assetTypeId, AssetPrice := assetPrice }

-- ---- Retry / timeout helpers ----

/-- `isRetryableStatus(status)` from the source. -/
def isRetryableStatus (status : Nat) : Bool :=
  status == 429 || status == 408 || status == 500 || status == 502 ||
    status == 503 || status == 504

/-- `parseRetryAfterMs(headers)` from the source.  `raw` is the `retry-after`
header (`none` models an absent or empty header, both falsy in JS); `numOf`
models `Number(raw)` when finite (seconds, possibly fractional); `dateDiffOf`
models `Date.parse(raw) - Date.now()` when `Date.parse` is finite.  Both are
oracle parameters for the platform's number/date parsers. -/
def parseRetryAfterMs (raw : Option String) (numOf : String → Option Rat)
    (dateDiffOf : String → Option Int) : Option Int :=
  match raw with
  | none => none
  | some r =>
    let dateBranch : Option Int :=
      match dateDiffOf r with
      | some diff => if diff > 0 then some (clampInt diff 0 RETRY_MAX_DELAY_MS) else none
      | none => none
    match numOf r with
    | some a =>
      if a > 0 then some (clampInt (jsTrunc (a * 1000)) 0 RETRY_MAX_DELAY_MS)
      else dateBranch
    | none => dateBranch

/-- `computeBackoffMs(attemptIndex, retryAfterMs)` from the source.  `jitter`
is the sampled `Math.floor(Math.random() * 250)`, an input here because
randomness is a platform primitive; the source constrains it to `0 ≤ jitter ≤
249`. -/
def computeBackoffMs (attemptIndex : Nat) (retryAfterMs : Option Int)
    (jitter : Nat) : Int :=
  let expPath : Int :=
    clampInt (RETRY_BASE_DELAY_MS * 2 ^ (attemptIndex - 1) + jitter)
      RETRY_BASE_DELAY_MS RETRY_MAX_DELAY_MS
  match retryAfterMs with
  | some r => if r > 0 then clampInt r 0 RETRY_MAX_DELAY_MS else expPath
  | none => expPath

-- ---- robloxGetJson (the resilient upstream GET client) ----

/-- Observed outcome of one physical `fetch` dispatch inside `fetchTextOnce`.
`redirectHost` is the host of `new URL(location, targetUrl)` when the response
carries a `Location` header (URL resolution is a platform primitive, so the
oracle reports the resolved host directly); `jsonOk` says whether the body text
parses as JSON; `retryAfterMs` is the already-parsed `parseRetryAfterMs` value
of the response's rate-limit headers (`none` when absent/unparseable). -/
inductive FetchOut where
  | exn
  | resp (status : Nat) (redirectHost : Option String) (jsonOk : Bool)
      (retryAfterMs : Option Int)
deriving DecidableEq, Repr

/-- Network oracle for one loop iteration of `robloxGetJson`: the outcome of
the first fetch, the outcome of the follow-up fetch should a redirect be
followed, and the jitter sampled for this attempt's backoff computation. -/
structure AttemptStep where
  first : FetchOut
  second : FetchOut
  jitter : Nat
deriving Repr

/-- Result of one `fetchTextOnce(url)` call. -/
inductive OnceResult where
  | thrown
  | redirectBlocked (host : String)
  | got (status : Nat) (jsonOk : Bool) (retryAfterMs : Option Int)
deriving DecidableEq, Repr

/-- `fetchTextOnce` from the source: dispatch once; on a 300–399 response with
a `Location` header, validate the resolved host against the allowlist (abort
with `redirectBlocked` if disallowed) and dispatch exactly once more with the
same headers; the follow-up response's own redirect is never chased.  Returns
the outcome together with the hosts of the fetches actually dispatched, in
order. -/
def fetchTextOnce (urlHost : String) (st : AttemptStep) :
    OnceResult × List String :=
  match st.first with
  | .exn => (.thrown, [urlHost])
  | .resp status redirectHost jsonOk retryAfterMs =>
    if 300 ≤ status ∧ status < 400 then
      match redirectHost with
      | some h =>
        if h ∈ ALLOWED_HOSTS then
          match st.second with
          | .exn => (.thrown, [urlHost, h])
          | .resp s2 _ jsonOk2 ra2 => (.got s2 jsonOk2 ra2, [urlHost, h])
        else (.redirectBlocked h, [urlHost])
      | none => (.got status jsonOk retryAfterMs, [urlHost])
    else (.got status jsonOk retryAfterMs, [urlHost])

/-- Outcome of a whole `robloxGetJson` call: `success` models returning the
parsed JSON value, `failure m` models pushing a fault whose message is `m` and
returning `null`. -/
inductive GetOutcome where
  | success
  | failure (message : String)
deriving DecidableEq, Repr

/-- Aggregate observable behaviour of one `robloxGetJson` call: the returned
value/fault, the hosts of every physical dispatch, the number of
`fetchTextOnce` attempts made, and the backoff delays slept between
attempts. -/
structure GetRun where
  result : GetOutcome
  hosts : List String
  attempts : Nat
  waits : List Int
deriving DecidableEq, Repr

/-- Retry loop of `robloxGetJson` (source lines 626–730).  `attempt` is the
1-based loop counter and `fuel = MAX_ATTEMPTS + 1 - attempt` counts the
remaining iterations, so `fuel = 1` exactly when `attempt = MAX_ATTEMPTS`
(`isLast`).  The `fuel = 0` base case corresponds to the `return null` after
the loop, unreachable when started with positive fuel. -/
def gjLoop (urlHost : String) (trace : Nat → AttemptStep) :
    Nat → Nat → GetRun
  | _, 0 => ⟨.failure "unreachable", [], 0, []⟩
  | attempt, fuel + 1 =>
    let st := trace attempt
    let once := fetchTextOnce urlHost st
    match once.1 with
    | .thrown =>
      if fuel = 0 then ⟨.failure "Upstream fetch failed", once.2, 1, []⟩
      else
        let rest := gjLoop urlHost trace (attempt + 1) fuel
        ⟨rest.result, once.2 ++ rest.hosts, rest.attempts + 1,
          computeBackoffMs attempt none st.jitter :: rest.waits⟩
    | .redirectBlocked _ =>
      ⟨.failure "Redirect host not allowed", once.2, 1, []⟩
    | .got status jsonOk retryAfterMs =>
      if 200 ≤ status ∧ status < 300 then
        if jsonOk = true then ⟨.success, once.2, 1, []⟩
        else ⟨.failure "Upstream returned non-JSON response", once.2, 1, []⟩
      else
        if isRetryableStatus status = true ∧ ¬ fuel = 0 then
          let rest := gjLoop urlHost trace (attempt + 1) fuel
          ⟨rest.result, once.2 ++ rest.hosts, rest.attempts + 1,
            computeBackoffMs attempt retryAfterMs st.jitter :: rest.waits⟩
        else ⟨.failure "Upstream error", once.2, 1, []⟩

/-- URL input of `robloxGetJson` after the platform's `new URL` parse:
either the constructor threw (`malformed`) or it produced an object whose
`host` is recorded. -/
inductive UrlInput where
  | malformed
  | parsed (host : String)
deriving DecidableEq, Repr

/-- `robloxGetJson(url, step, context)` from the source: parse the URL (fault
`Invalid URL format` on failure, zero dispatches), validate the host against
`ALLOWED_HOSTS` (fault `Host not allowed`, zero dispatches), then run the
retry loop. -/
def robloxGetJson (url : UrlInput) (trace : Nat → AttemptStep) : GetRun :=
  match url with
  | .malformed => ⟨.failure "Invalid URL format", [], 0, []⟩
  | .parsed host =>
    if host ∈ ALLOWED_HOSTS then gjLoop host trace 1 MAX_ATTEMPTS
    else ⟨.failure "Host not allowed", [], 0, []⟩

-- ---- createLimiter (bounded concurrency limiter) ----

/-- State of `createLimiter(limit)`'s closure.  `running` holds the ids of the
jobs currently admitted (so `active = running.length`); `queue` is the FIFO
waiting list; `admitted` records, in order, every job ever admitted (the order
in which `queue.shift()` handed jobs to execution); `settled` records, in
order, every settlement `(job id, job outcome)` produced by
`.then(job.fn).then(job.resolve, job.reject)`.  Job ids are the submission
indices; `jobs : Nat → Except ε α` gives each job's own outcome, which the
limiter passes through untransformed. -/
structure LimState (ε α : Type) where
  running : List Nat
  queue : List Nat
  admitted : List Nat
  settled : List (Nat × Except ε α)
deriving Repr

/-- Initial limiter state: nothing running, queued, admitted or settled. -/
def limInit (ε α : Type) : LimState ε α := ⟨[], [], [], []⟩

/-- `next()` from the source: if fewer than `limit` jobs are active and the
queue is non-empty, shift the queue's head and start it (admit it). -/
def limNext (limit : Nat) (s : LimState ε α) : LimState ε α :=
  if limit ≤ s.running.length then s
  else
    match s.queue with
    | [] => s
    | j :: rest =>
      { s with running := s.running ++ [j], queue := rest,
               admitted := s.admitted ++ [j] }

/-- `run(fn)` from the source: push the job onto the queue, then call
`next()`. -/
def limSubmit (limit : Nat) (s : LimState ε α) (j : Nat) : LimState ε α :=
  limNext limit { s with queue := s.queue ++ [j] }

/-- Completion of running job `j` (the `.finally` handler): its promise
settles with the job's own outcome `jobs j`, the active count drops, and
`next()` runs.  A `complete` for a job that is not running is a no-op (the
event cannot occur in the source; the guard keeps the transition total). -/
def limComplete (limit : Nat) (jobs : Nat → Except ε α) (s : LimState ε α)
    (j : Nat) : LimState ε α :=
  if j ∈ s.running then
    limNext limit { s with running := s.running.erase j,
                           settled := s.settled ++ [(j, jobs j)] }
  else s

/-- Events of the limiter's cooperative scheduler. -/
inductive LimEvent where
  | submit (j : Nat)
  | complete (j : Nat)
deriving DecidableEq, Repr

/-- Run of the limiter over an arbitrary event sequence. -/
def limRun (limit : Nat) (jobs : Nat → Except ε α) (events : List LimEvent) :
    LimState ε α :=
  events.foldl
    (fun s e =>
      match e with
      | .submit j => limSubmit limit s j
      | .complete j => limComplete limit jobs s j)
    (limInit ε α)

/-- Fair drain driver: while any job is running, complete the earliest-admitted
running job.  `fuel` bounds the recursion; each completion strictly shrinks
`running.length + queue.length`. -/
def limDrain (limit : Nat) (jobs : Nat → Except ε α) :
    Nat → LimState ε α → LimState ε α
  | 0, s => s
  | fuel + 1, s =>
    match s.running with
    | [] => s
    | j :: _ => limDrain limit jobs fuel (limComplete limit jobs s j)

/-- End-to-end driver: submit jobs `0, …, n-1` in order, then fairly drain. -/
def limRunAll (limit : Nat) (jobs : Nat → Except ε α) (n : Nat) :
    LimState ε α :=
  limDrain limit jobs n ((List.range n).foldl (limSubmit limit) (limInit ε α))

-- ---- catalogPostItemsDetails (CSRF negotiator) ----

/-- Parsed-body shape of one catalog POST response as far as the source
inspects it: whether the text parses as JSON, whether `parsed.value?.data` is
an array, and that array's items. -/
structure CatBody (ι : Type) where
  jsonOk : Bool
  hasDataArr : Bool
  items : List ι
deriving Repr, DecidableEq

/-- Observed outcome of one physical catalog POST dispatch: a transport
exception, or a response with its status, its `x-csrf-token` response header
(`none` = absent) and its body. -/
inductive PostOut (ι : Type) where
  | exn
  | resp (status : Nat) (csrfToken : Option String) (body : CatBody ι)
deriving Repr, DecidableEq

/-- Network oracle for one loop iteration of `catalogPostItemsDetails`: the
first POST's outcome and the outcome of the in-attempt CSRF-retry POST (used
only when the retry fires). -/
structure PostAttempt (ι : Type) where
  first : PostOut ι
  second : PostOut ι
deriving Repr, DecidableEq

/-- Aggregate observable behaviour of one `catalogPostItemsDetails` call:
the returned value (`none` models returning `null`), the module-global
`cachedCsrfToken` after the call, the `x-csrf-token` request header attached
to each POST dispatched (in order; `none` = no token header), and the fault
message pushed if the call failed. -/
structure PostRun (ι : Type) where
  data : Option (List ι)
  cachedOut : Option String
  sentTokens : List (Option String)
  fault : Option String
deriving Repr, DecidableEq

/-- Classification shared by both exits of an attempt of
`catalogPostItemsDetails` (source lines 329–396): 2xx responses must parse as
JSON and carry a `data` array; non-2xx retryable statuses retry while attempts
remain; everything else is terminal with the corresponding fault. -/
inductive PostClass (ι : Type) where
  | retry
  | done (run : PostRun ι)

/-- Retry loop of `catalogPostItemsDetails` (source lines 313–420).  `cached`
is the module-global `cachedCsrfToken`; `hdrTok` is the `x-csrf-token` entry
of the per-call `headers` object (absent until a refresh fires).  The CSRF
step runs at most once per iteration: on a 403 whose `x-csrf-token` response
header is truthy and differs from the cached token, the token is cached,
attached, and the POST reissued once; the reissued response then flows into
the ordinary status classification, so a second 403 (non-retryable) is a
terminal fault while a retryable status consumes a regular retry attempt. -/
def catPostLoop (trace : Nat → PostAttempt ι) :
    Nat → Nat → Option String → Option String → PostRun ι
  | _, 0, cached, _ => ⟨none, cached, [], none⟩
  | attempt, fuel + 1, cached, hdrTok =>
    let st := trace attempt
    let isLast : Bool := fuel = 0
    match st.first with
    | .exn =>
      if isLast then ⟨none, cached, [hdrTok], some "Catalog POST failed"⟩
      else
        let rest := catPostLoop trace (attempt + 1) fuel cached hdrTok
        { rest with sentTokens := hdrTok :: rest.sentTokens }
    | .resp status tok body =>
      let refresh : Bool :=
        status == 403 &&
          match tok with
          | some t => !(t == "") && !(cached == some t)
          | none => false
      let cached' := if refresh then tok else cached
      let hdr' := if refresh then tok else hdrTok
      let sentHere : List (Option String) :=
        if refresh then [hdrTok, hdr'] else [hdrTok]
      let out2 : PostOut ι := if refresh then st.second else st.first
      match out2 with
      | .exn =>
        if isLast then ⟨none, cached', sentHere, some "Catalog POST failed"⟩
        else
          let rest := catPostLoop trace (attempt + 1) fuel cached' hdr'
          { rest with sentTokens := sentHere ++ rest.sentTokens }
      | .resp status2 _ body2 =>
        if 200 ≤ status2 ∧ status2 < 300 then
          if ¬ body2.jsonOk then
            ⟨none, cached', sentHere, some "Catalog returned non-JSON response"⟩
          else if ¬ body2.hasDataArr then
            ⟨none, cached', sentHere, some "Catalog response missing data[]"⟩
          else ⟨some body2.items, cached', sentHere, none⟩
        else
          if isRetryableStatus status2 ∧ ¬ isLast then
            let rest := catPostLoop trace (attempt + 1) fuel cached' hdr'
            { rest with sentTokens := sentHere ++ rest.sentTokens }
          else ⟨none, cached', sentHere, some "Catalog upstream error"⟩

/-- `catalogPostItemsDetails` from the source: the per-call `headers` object
starts with no `x-csrf-token` entry; the loop runs with the module-global
cached token threaded through. -/
def catalogPostItemsDetails (trace : Nat → PostAttempt ι)
    (cachedCsrfToken : Option String) : PostRun ι :=
  catPostLoop trace 1 MAX_ATTEMPTS cachedCsrfToken none

-- ---- Aggregation pipeline: data object and stages ----

/-- One type bucket of the output `data` object: asset id → entry, in JS
object insertion order.  Ids are the JS numbers used as keys
(`String(assetId)` in the source; the string rendering is injective on the
numbers that occur, so the number itself serves as the key). -/
abbrev Bucket := List (Rat × AssetEntry)

/-- The output `data` / `out.Data` JS object: type key → bucket.  The early
paths return it as the empty object `{}` (no keys); the pipeline initializes
it with all four `ASSET_LIST_KEYS`. -/
abbrev DataObj := List (String × Bucket)

/-- `const data = {}; for (const key of ASSET_LIST_KEYS) data[key] = {}` from
the source. -/
def initialData : DataObj :=
  [("GAMEPASS", []), ("CLASSIC_TSHIRT", []), ("CLASSIC_SHIRT", []),
   ("CLASSIC_PANTS", [])]

/-- `data[invKey][String(assetId)] = entry`.  The `none` branch (missing type
key) cannot be reached from the pipeline, whose `data` always carries the four
keys; it is a harmless total-function completion. -/
def dataWrite (d : DataObj) (key : String) (id : Rat) (e : AssetEntry) :
    DataObj :=
  match objGet d key with
  | some b => objSet d key (objSet b id e)
  | none => d

/-- A game pass as the stage-C loop reads it from the `gamePasses` array:
the fields `id`, `isForSale`, `price`, `name`, `displayName` (an array element
that is not an object behaves like one with all fields `undef`). -/
structure GamePassRaw where
  id : JsVal
  isForSale : JsVal
  price : JsVal
  name : JsVal
  displayName : JsVal
deriving DecidableEq, Repr

/-- A non-blank-string check: the JS pattern
`typeof x === "string" && x.trim() !== "" && x`. -/
def strOk : JsVal → Option String
  | .str s => if jsTrim s = "" then none else some s
  | _ => none

/-- Display-name fallback of the game-pass stage:
`name → displayName → "Game Pass {id}"`, skipping blank strings. -/
def gpName (gp : GamePassRaw) (gpId : Rat) : String :=
  match strOk gp.name with
  | some n => n
  | none =>
    match strOk gp.displayName with
    | some n => n
    | none => s!"Game Pass {gpId}"

/-- Seen-set plus GAMEPASS bucket plus faults accumulated by the game-pass
stage. -/
structure GpSt where
  seen : List Rat
  bucket : Bucket
  errs : List Fault
deriving Repr

/-- Body of the `for (const gp of passes)` loop (source lines 802–820): skip
non-finite-number ids, already-seen ids, passes not flagged `isForSale ===
true`, and non-positive parsed prices; otherwise record the pass under the
fixed game-pass type id 34. -/
def gpStep (numOf : String → Option Rat) (st : GpSt) (gp : GamePassRaw) :
    GpSt :=
  match gp.id with
  | .num gpId =>
    if gpId ∈ st.seen then st
    else if ¬ gp.isForSale = JsVal.boolean true then st
    else
      match parseRobuxPrice gp.price numOf with
      | some price =>
        if price ≤ 0 then st
        else
          { st with
            seen := gpId :: st.seen,
            bucket := objSet st.bucket gpId
              (makeAssetEntry (gpName gp gpId) "GAMEPASS" 34 price) }
      | none => st
  | _ => st

/-- Outcome of one logical `robloxGetJson` call as the pipeline observes it:
`failed m` = the client returned `null` having pushed one fault with message
`m`; `nullJson` = the client returned the parsed JSON value `null` (falsy, but
no fault); `ok v` = a non-null parsed value, projected to the fields the
caller reads. -/
inductive UpJson (α : Type) where
  | failed (message : String)
  | nullJson
  | ok (v : α)
deriving Repr

/-- One page of a universe's game-pass listing as stage C reads it:
`gamePasses` (already defaulted to `[]` when not an array) and
`nextPageToken`. -/
structure GpPage where
  passes : List GamePassRaw
  nextPageToken : Option String
deriving Repr

/-- Paging loop over one universe's game passes (source lines 791–824).
`fetch page` abstracts the `robloxGetJson` call for that page (the page token
in the URL is determined by the preceding responses, so pages are indexed by
their ordinal).  A falsy `gpJson` stops this universe's paging, with a fault
only when the client itself failed.  `fuel` is `maxUniversePages - page`. -/
def gpPages (numOf : String → Option Rat) (fetch : Nat → UpJson GpPage) :
    Nat → Nat → GpSt → GpSt
  | _, 0, st => st
  | page, fuel + 1, st =>
    match fetch page with
    | .failed m =>
      { st with errs := st.errs ++ [⟨"gamepasses.list", m⟩] }
    | .nullJson => st
    | .ok pg =>
      let st' := pg.passes.foldl (gpStep numOf) st
      match getNextPageToken pg.nextPageToken with
      | none => st'
      | some _ => gpPages numOf fetch (page + 1) fuel st'

/-- Stage C (game passes): fold the per-universe paging loop over the
deduplicated universe ids, sharing one seen-set and one bucket across pages
and universes.  The fan-out through the limiter is sequentialized in universe
order; cooperative single-threaded interleaving affects only the relative
order of fault records, which no claim depends on. -/
def gamepassStage (numOf : String → Option Rat)
    (fetchU : Rat → Nat → UpJson GpPage) (maxUniversePages : Nat)
    (universeIds : List Rat) : GpSt :=
  universeIds.foldl (fun st u => gpPages numOf (fetchU u) 0 maxUniversePages st)
    ⟨[], [], []⟩

-- ---- Stage D: inventory ----

/-- One page of the inventory listing: the `assetDetails.assetId` field of
each item (a string in the upstream schema) and `nextPageToken`. -/
structure InvPage where
  itemAssetIds : List JsVal
  nextPageToken : Option String
deriving Repr

/-- Inventory paging loop for one asset type (source lines 839–861): collect
positive finite `Number(rawAssetId)` values into an insertion-ordered set; a
falsy `invJson` breaks the loop (fault only when the client failed). -/
def invPages (numOf : String → Option Rat) (fetch : Nat → UpJson InvPage) :
    Nat → Nat → List Rat × List Fault → List Rat × List Fault
  | _, 0, acc => acc
  | page, fuel + 1, acc =>
    match fetch page with
    | .failed m => (acc.1, acc.2 ++ [⟨"inventory.list", m⟩])
    | .nullJson => acc
    | .ok pg =>
      let ids := pg.itemAssetIds.foldl
        (fun (l : List Rat) it =>
          match it with
          | .str s =>
            if jsTrim s = "" then l
            else
              match numOf s with
              | some q => if 0 < q then setAdd l q else l
              | none => l
          | _ => l)
        acc.1
      match getNextPageToken pg.nextPageToken with
      | none => (ids, acc.2)
      | some _ => invPages numOf fetch (page + 1) fuel (ids, acc.2)

/-- Stage D: run the inventory paging loop for the three classic clothing
types in declaration order, producing one id-set per type. -/
def inventoryStage (numOf : String → Option Rat)
    (fetchInv : String → Nat → UpJson InvPage) (maxInventoryPages : Nat) :
    (List Rat × List Rat × List Rat) × List Fault :=
  let t := invPages numOf (fetchInv "CLASSIC_TSHIRT") 0 maxInventoryPages ([], [])
  let s := invPages numOf (fetchInv "CLASSIC_SHIRT") 0 maxInventoryPages ([], [])
  let p := invPages numOf (fetchInv "CLASSIC_PANTS") 0 maxInventoryPages ([], [])
  ((t.1, s.1, p.1), t.2 ++ s.2 ++ p.2)

-- ---- Stage E: catalog enrichment + ownership resolution ----

/-- JS `Number(v)` coercion on the modeled values (`none` = NaN).  Strings go
through the platform parser oracle (`Number("")` and blank strings are `0`);
`other` (objects, non-finite numbers) is modeled as non-finite. -/
def jsNumberOf (v : JsVal) (numOf : String → Option Rat) : Option Rat :=
  match v with
  | .num q => some q
  | .str s => if jsTrim s = "" then some 0 else numOf s
  | .boolean b => some (if b then 1 else 0)
  | .jsNull => some 0
  | .undef => none
  | .other => none

/-- A catalog item as stage E reads it from the details array (a non-object
array element behaves like an item with all fields `undef`). -/
structure CatalogItem where
  id : JsVal
  isOffSale : JsVal
  price : JsVal
  priceStatus : JsVal
  name : JsVal
  creatorTargetId : JsVal
  creatorType : JsVal
deriving DecidableEq, Repr

/-- `isCatalogForSale(item)` from the source: reject `isOffSale === true`,
non-positive or unparseable prices, and a `priceStatus` string equal to
"offsale" after trim/lower-casing. -/
def isCatalogForSale (numOf : String → Option Rat) (it : CatalogItem) : Bool :=
  if it.isOffSale = JsVal.boolean true then false
  else
    match parseRobuxPrice it.price numOf with
    | none => false
    | some p =>
      if p ≤ 0 then false
      else
        match it.priceStatus with
        | .str ps => ¬ jsToLower (jsTrim ps) = "offsale"
        | _ => true

/-- Normalized creator type. -/
inductive CreatorNorm where
  | group
  | user
  | unknown
deriving DecidableEq, Repr

/-- `normalizeCatalogCreatorType(creatorTypeRaw)` from the source: recognized
strings map to User/Group, unrecognized strings to `null` (`none`); finite
numbers map 1 ↦ User, 2 ↦ Group and anything else to `"Unknown"`; every other
value maps to `null`. -/
def normalizeCatalogCreatorType : JsVal → Option CreatorNorm
  | .str s =>
    let t := jsToLower (jsTrim s)
    if t = "group" then some .group
    else if t = "user" then some .user
    else none
  | .num q =>
    if q = 2 then some .group
    else if q = 1 then some .user
    else some .unknown
  | _ => none

/-- A deferred group-probe job queued on `groupChecks` during the synchronous
pass over a batch: what to write if the ownership check passes, which id to
probe, and whether it came from the `"Unknown"` branch (which falls back to
the User rule when the probe does not resolve an owner). -/
structure Deferred where
  invKey : String
  assetId : Rat
  entry : AssetEntry
  probeId : Rat
  isUnknown : Bool
deriving DecidableEq, Repr

/-- Synchronous part of the `for (const item of details)` body (source lines
898–953): shape/for-sale/price filters, name fallback, type-id constant, then
the creator-type dispatch.  The User branch writes immediately; the Group and
Unknown branches enqueue a deferred probe; an unrecognized creator-type
normalization (`none`) skips the item entirely. -/
def catalogItemSync (numOf : String → Option Rat) (userId : Int)
    (lookup : List (Rat × String)) (acc : DataObj × List Deferred)
    (it : CatalogItem) : DataObj × List Deferred :=
  match it.id with
  | .num assetId =>
    if assetId ≤ 0 then acc
    else
      match objGet lookup assetId with
      | none => acc
      | some invKey =>
        if ¬ isCatalogForSale numOf it then acc
        else
          match parseRobuxPrice it.price numOf with
          | none => acc
          | some price =>
            if price ≤ 0 then acc
            else
              let name :=
                match strOk it.name with
                | some n => n
                | none => s!"Asset {assetId}"
              let typeId : Int :=
                if invKey = "CLASSIC_TSHIRT" then 2
                else if invKey = "CLASSIC_SHIRT" then 11
                else 12
              let entry := makeAssetEntry name invKey typeId price
              match normalizeCatalogCreatorType it.creatorType with
              | some .user =>
                if jsNumberOf it.creatorTargetId numOf = some (userId : Rat) then
                  (dataWrite acc.1 invKey assetId entry, acc.2)
                else acc
              | some .group =>
                match jsNumberOf it.creatorTargetId numOf with
                | some gid =>
                  if gid ≤ 0 then acc
                  else (acc.1, acc.2 ++ [⟨invKey, assetId, entry, gid, false⟩])
                | none => acc
              | some .unknown =>
                match jsNumberOf it.creatorTargetId numOf with
                | some maybeId =>
                  if maybeId ≤ 0 then acc
                  else (acc.1, acc.2 ++ [⟨invKey, assetId, entry, maybeId, true⟩])
                | none => acc
              | none => acc
  | _ => acc

/-- `getGroupOwner(groupId)` from the source, with the per-request memoizing
cache threaded explicitly.  The oracle gives the outcome of the
`robloxGetJson` call on the group URL, its value already projected through
`parseGroupOwnerUserId` (`some o` = the response resolved owner `o`). -/
def getGroupOwner (groupOwner : Rat → UpJson (Option Int))
    (cache : List (Rat × Option Int)) (gid : Rat) :
    Option Int × List (Rat × Option Int) × List Fault :=
  match objGet cache gid with
  | some o => (o, cache, [])
  | none =>
    match groupOwner gid with
    | .failed m => (none, objSet cache gid none, [⟨"groups.get", m⟩])
    | .nullJson => (none, objSet cache gid none, [])
    | .ok o => (o, objSet cache gid o, [])

/-- State threaded through stage E's batches: the data object, the group-owner
cache (shared across batches) and the accumulated faults. -/
structure EState where
  data : DataObj
  cache : List (Rat × Option Int)
  errs : List Fault
deriving Repr

/-- Resolution of one deferred probe (the limiter job pushed on
`groupChecks`): Group rule — include iff the resolved owner equals the target
user; Unknown fall-back — when no owner resolves, include iff the probed id
itself equals the target user. -/
def deferredStep (groupOwner : Rat → UpJson (Option Int)) (userId : Int)
    (st : EState) (d : Deferred) : EState :=
  let probe := getGroupOwner groupOwner st.cache d.probeId
  let st' := { st with cache := probe.2.1, errs := st.errs ++ probe.2.2 }
  match probe.1 with
  | some ow =>
    if ow = userId then
      { st' with data := dataWrite st'.data d.invKey d.assetId d.entry }
    else st'
  | none =>
    if d.isUnknown ∧ d.probeId = (userId : Rat) then
      { st' with data := dataWrite st'.data d.invKey d.assetId d.entry }
    else st'

/-- Processing of one batch's details array: the synchronous pass over the
items, then `await Promise.all(groupChecks)` — the deferred probes resolved in
enqueue order (the fan-out through the limiter is sequentialized; only fault
order depends on the interleaving, which no claim uses). -/
def processBatch (numOf : String → Option Rat)
    (groupOwner : Rat → UpJson (Option Int)) (userId : Int)
    (lookup : List (Rat × String)) (st : EState) (items : List CatalogItem) :
    EState :=
  let sync := items.foldl (catalogItemSync numOf userId lookup) (st.data, [])
  sync.2.foldl (deferredStep groupOwner userId) { st with data := sync.1 }

/-- Fuel-indexed chunking; `chunks n l` is the batch decomposition
`l.slice(i, i + n)` of the source's batching loop. -/
def chunksGo (n : Nat) : Nat → List α → List (List α)
  | 0, _ => []
  | _, [] => []
  | fuel + 1, l => l.take n :: chunksGo n fuel (l.drop n)

/-- Batches of size `n` (the source iterates `i` in steps of
`catalogBatchSize` over `allAssetIds`). -/
def chunks (n : Nat) (l : List α) : List (List α) := chunksGo n l.length l

/-- Batch loop of stage E (source lines 890–956): each batch's details come
from one `catalogPostItemsDetails` call (abstracted by batch ordinal); a
failed batch records its fault and the loop continues with the next batch. -/
def catalogStage (numOf : String → Option Rat)
    (catBatch : Nat → UpJson (List CatalogItem))
    (groupOwner : Rat → UpJson (Option Int)) (userId : Int)
    (lookup : List (Rat × String)) (batchCount : Nat) (st0 : EState) : EState :=
  (List.range batchCount).foldl
    (fun st bi =>
      match catBatch bi with
      | .failed m => { st with errs := st.errs ++ [⟨"catalog.details", m⟩] }
      | .nullJson => st
      | .ok items => processBatch numOf groupOwner userId lookup st items)
    st0

/-- `assetTypeLookup` construction: `Map.set` in tshirt → shirt → pants order,
so a later type overwrites an earlier one for an id present in several
inventories. -/
def buildLookup (t s p : List Rat) : List (Rat × String) :=
  let m1 := t.foldl (fun m id => objSet m id "CLASSIC_TSHIRT")
    ([] : List (Rat × String))
  let m2 := s.foldl (fun m id => objSet m id "CLASSIC_SHIRT") m1
  p.foldl (fun m id => objSet m id "CLASSIC_PANTS") m2

/-- Stages D+E (the `includeClothing` block, source lines 831–958). -/
def clothingStage (numOf : String → Option Rat)
    (fetchInv : String → Nat → UpJson InvPage)
    (catBatch : Nat → UpJson (List CatalogItem))
    (groupOwner : Rat → UpJson (Option Int)) (userId : Int)
    (maxInventoryPages : Nat) (data : DataObj) : DataObj × List Fault :=
  let inv := inventoryStage numOf fetchInv maxInventoryPages
  let t := inv.1.1
  let s := inv.1.2.1
  let p := inv.1.2.2
  let allAssetIds := dedupList (t ++ s ++ p)
  if allAssetIds = [] then (data, inv.2)
  else
    let lookup := buildLookup t s p
    let batches := chunks DEFAULTS_catalogBatchSize allAssetIds
    let fin := catalogStage numOf catBatch groupOwner userId lookup
      batches.length ⟨data, [], []⟩
    (fin.data, inv.2 ++ fin.errs)

-- ---- handler ----

/-- The handler's inbound query fields (each a raw query value: a string, an
absent value, …). -/
structure QueryInput where
  userId : JsVal
  includeGamepasses : JsVal
  includeClothing : JsVal
  maxPlaces : JsVal
  maxUniversePages : JsVal
  maxInventoryPages : JsVal
  pageSize : JsVal
deriving Repr

/-- All upstream behaviour the handler observes, as oracles: the JS `Number`
string parser, and the outcome of every logical upstream call keyed by its
identifying data.  The value of each `UpJson.ok` is already projected to the
fields the handler reads. -/
structure Oracles where
  numOf : String → Option Rat
  games : UpJson (Option (List JsVal))
  universeOf : Rat → UpJson JsVal
  gpPage : Rat → Nat → UpJson GpPage
  invPage : String → Nat → UpJson InvPage
  catBatch : Nat → UpJson (List CatalogItem)
  groupOwner : Rat → UpJson (Option Int)

/-- `out.summary`. -/
structure Summary where
  places : Nat
  universes : Nat
  gamepasses : Nat
  clothing : Nat
deriving DecidableEq, Repr

/-- The response body `out`. -/
structure OutBody where
  ok : Bool
  userId : Int
  summary : Summary
  Data : DataObj
  errors : List Fault
deriving DecidableEq, Repr

/-- An HTTP response of the handler: transport status plus JSON body. -/
structure HResp where
  status : Nat
  body : OutBody
deriving DecidableEq, Repr

/-- Early validation-failure response: `out` as initialized (empty `Data`
object, zero summary) with one `validate` fault, sent with status 200. -/
def validationFailure (message : String) : HResp :=
  ⟨200, ⟨false, 0, ⟨0, 0, 0, 0⟩, [], [⟨"validate", message⟩]⟩⟩

/-- Stage A (source lines 745–756): extract the finite-number
`rootPlace.id`s from the games listing (a failed call contributes its fault
and an empty array). -/
def gamesStage (o : Oracles) : List Rat × List Fault :=
  let gamesArr : List JsVal :=
    match o.games with
    | .ok d => d.getD []
    | _ => []
  let errsA : List Fault :=
    match o.games with
    | .failed m => [⟨"games.list", m⟩]
    | _ => []
  (gamesArr.foldl
    (fun (l : List Rat) v => match v with | .num q => l ++ [q] | _ => l) [],
   errsA)

/-- Stage B (source lines 759–779): resolve each place to its universe,
faulting on failed calls and on non-null responses missing a finite-number
`universeId`, without stopping the other lookups. -/
def universesStage (o : Oracles) (placeIds : List Rat) :
    List Rat × List Fault :=
  placeIds.foldl
    (fun (acc : List Rat × List Fault) pid =>
      match o.universeOf pid with
      | .failed m => (acc.1, acc.2 ++ [⟨"universes.fromPlace", m⟩])
      | .nullJson => acc
      | .ok uniVal =>
        match uniVal with
        | .num uq => (setAdd acc.1 uq, acc.2)
        | _ =>
          (acc.1, acc.2 ++
            [⟨"universes.fromPlace",
              "Invalid universe response (missing universeId)"⟩]))
    ([], [])

/-- The pipeline and final assembly (source lines 484–978), reached once the
method and `userId` validated.  The fan-outs through the limiter are
sequentialized in submission order; only the relative order of fault records
depends on the real interleaving and no claim refers to that order. -/
def runPipeline (userId : Int) (q : QueryInput) (o : Oracles) : HResp :=
  let includeGamepasses := parseBool q.includeGamepasses true
  let includeClothing := parseBool q.includeClothing true
  let maxPlaces := clamp ((toInt q.maxPlaces o.numOf).getD 50) 1 50
  let maxUniversePages := clamp ((toInt q.maxUniversePages o.numOf).getD 10) 1 100
  let maxInventoryPages := clamp ((toInt q.maxInventoryPages o.numOf).getD 10) 1 100
  -- pageSize is validated and clamped the same way but only shapes upstream
  -- URLs, which the page oracles abstract; it affects no modeled output.
  let stA := gamesStage o
  let placeIds := (dedupList stA.1).take maxPlaces.toNat
  let stB := universesStage o placeIds
  let universeIds := stB.1
  -- Stage C: game passes
  let stC : DataObj × List Fault :=
    if includeGamepasses then
      let g := gamepassStage o.numOf o.gpPage maxUniversePages.toNat universeIds
      (objSet initialData "GAMEPASS" g.bucket, g.errs)
    else (initialData, [])
  -- Stages D/E: inventory + catalog enrichment
  let stE : DataObj × List Fault :=
    if includeClothing then
      clothingStage o.numOf o.invPage o.catBatch o.groupOwner userId
        maxInventoryPages.toNat stC.1
    else (stC.1, [])
  let data := stE.1
  let errors := stA.2 ++ stB.2 ++ stC.2 ++ stE.2
  ⟨200,
    { ok := errors = [],
      userId := userId,
      summary :=
        ⟨placeIds.length, universeIds.length,
          ((objGet data "GAMEPASS").getD []).length,
          ((objGet data "CLASSIC_TSHIRT").getD []).length +
            ((objGet data "CLASSIC_SHIRT").getD []).length +
            ((objGet data "CLASSIC_PANTS").getD []).length⟩,
      Data := data,
      errors := errors }⟩

/-- `handler(req, res)` on its non-throwing paths: non-GET and invalid-userId
requests answer 200 with a `validate` fault; otherwise the pipeline runs. -/
def handler (method : String) (q : QueryInput) (o : Oracles) : HResp :=
  if ¬ method = "GET" then
    validationFailure "Method not allowed (GET only)"
  else
    match toInt q.userId o.numOf with
    | none =>
      validationFailure "Missing or invalid userId (must be a positive integer)"
    | some userId =>
      if userId ≤ 0 then
        validationFailure "Missing or invalid userId (must be a positive integer)"
      else runPipeline userId q o

/-- The outermost `catch` (source lines 979–991): whatever `out` held when the
exception surfaced, push one `fatal` fault, force `ok := false`, and still
answer 200. -/
def fatalAssemble (prior : OutBody) : HResp :=
  ⟨200,
    { prior with
        ok := false
        errors := prior.errors ++ [⟨"fatal", "Unhandled server error"⟩] }⟩

-- ---- General fold / invariant helpers ----

/-- Fold invariance: a predicate preserved by every step of a left fold holds
of the fold's result. -/
theorem foldlInv {P : β → Prop} (f : β → α → β)
    (h : ∀ b a, P b → P (f b a)) :
    ∀ (l : List α) (b : β), P b → P (l.foldl f b) := by
  intro l
  induction l with
  | nil => intro b hb; simpa using hb
  | cons a rest ih => intro b hb; simpa using ih (f b a) (h b a hb)

-- ---- C1: allowlist validation of every GET dispatch ----

/-- Dispatch hosts of one `fetchTextOnce`: every host is either the validated
request host or was itself checked against the allowlist (the redirect
branch). -/
theorem fetchTextOnce_hosts (urlHost : String) (st : AttemptStep) :
    ∀ h ∈ (fetchTextOnce urlHost st).2, h = urlHost ∨ h ∈ ALLOWED_HOSTS := by
  rcases st with ⟨first, second, jitter⟩
  cases first with
  | exn => simp [fetchTextOnce]
  | resp status redirectHost jsonOk ra =>
    unfold fetchTextOnce
    dsimp only
    split
    · cases redirectHost with
      | none => simp
      | some h2 =>
        dsimp only
        split
        · cases second <;> simp_all
        · simp
    · simp

/-- One attempt dispatches at most two fetches (the original and at most one
redirect hop). -/
theorem fetchTextOnce_at_most_two (urlHost : String) (st : AttemptStep) :
    (fetchTextOnce urlHost st).2.length ≤ 2 := by
  rcases st with ⟨first, second, jitter⟩
  cases first with
  | exn => simp [fetchTextOnce]
  | resp status redirectHost jsonOk ra =>
    unfold fetchTextOnce
    dsimp only
    split
    · cases redirectHost with
      | none => simp
      | some h2 =>
        dsimp only
        split
        · cases second <;> simp
        · simp
    · simp

/-- Every host dispatched by the retry loop is allowlisted, provided the
request host itself is. -/
theorem gjLoop_hosts (urlHost : String) (trace : Nat → AttemptStep) :
    ∀ (fuel attempt : Nat), urlHost ∈ ALLOWED_HOSTS →
      ∀ h ∈ (gjLoop urlHost trace attempt fuel).hosts, h ∈ ALLOWED_HOSTS := by
  intro fuel
  induction fuel with
  | zero => intro attempt hA h hh; simp [gjLoop] at hh
  | succ n ih =>
    intro attempt hA h hh
    have hstep := fetchTextOnce_hosts urlHost (trace attempt)
    have hone : ∀ hx, hx ∈ (fetchTextOnce urlHost (trace attempt)).2 →
        hx ∈ ALLOWED_HOSTS := by
      intro hx hmem
      rcases hstep hx hmem with rfl | hm
      · exact hA
      · exact hm
    unfold gjLoop at hh
    rcases hOnce : (fetchTextOnce urlHost (trace attempt)).1 with _ | bh |
        ⟨status, jsonOk, ra⟩ <;> simp only [hOnce] at hh
    · split at hh
      · exact hone h hh
      · rcases List.mem_append.mp hh with hh | hh
        · exact hone h hh
        · exact ih (attempt + 1) hA h hh
    · exact hone h hh
    · split at hh
      · split at hh
        · exact hone h hh
        · exact hone h hh
      · split at hh
        · rcases List.mem_append.mp hh with hh | hh
          · exact hone h hh
          · exact ih (attempt + 1) hA h hh
        · exact hone h hh

/-- C1: every URL given to the upstream GET client has its host validated
against the allowlist before any network dispatch — a malformed URL or a
disallowed host yields the corresponding fault and null with zero dispatches;
every host actually dispatched (including redirect targets) is allowlisted; a
redirect to a disallowed host yields the `Redirect host not allowed` fault and
null after the single original dispatch; and an attempt never follows more
than one redirect hop (at most two dispatches per attempt). -/
theorem C1_get_client_allowlist_safety :
    (∀ trace, robloxGetJson .malformed trace =
      ⟨.failure "Invalid URL format", [], 0, []⟩) ∧
    (∀ host trace, host ∉ ALLOWED_HOSTS →
      robloxGetJson (.parsed host) trace =
        ⟨.failure "Host not allowed", [], 0, []⟩) ∧
    (∀ url trace, ∀ h ∈ (robloxGetJson url trace).hosts, h ∈ ALLOWED_HOSTS) ∧
    (∀ host trace status rh jsonOk ra, host ∈ ALLOWED_HOSTS →
      (trace 1).first = .resp status (some rh) jsonOk ra →
      300 ≤ status → status < 400 → rh ∉ ALLOWED_HOSTS →
      robloxGetJson (.parsed host) trace =
        ⟨.failure "Redirect host not allowed", [host], 1, []⟩) ∧
    (∀ host st, (fetchTextOnce host st).2.length ≤ 2) := by
  refine ⟨fun _ => rfl, fun host trace hni => ?_, fun url trace h hh => ?_,
    fun host trace status rh jsonOk ra hA htr h3 h4 hrh => ?_,
    fetchTextOnce_at_most_two⟩
  · simp [robloxGetJson, hni]
  · rcases url with _ | host
    · simp [robloxGetJson] at hh
    · by_cases hA : host ∈ ALLOWED_HOSTS
      · simp only [robloxGetJson, hA, if_true] at hh
        exact gjLoop_hosts host trace MAX_ATTEMPTS 1 hA h hh
      · simp [robloxGetJson, hA] at hh
  · have honce : fetchTextOnce host (trace 1) = (.redirectBlocked rh, [host]) := by
      unfold fetchTextOnce
      rw [htr]
      simp [h3, h4, hrh]
    simp [robloxGetJson, hA, MAX_ATTEMPTS, gjLoop, honce]

/-- Redirect oracle used by the C1 witness: every first fetch answers a 302
pointing at a non-allowlisted host. -/
def c1Trace : Nat → AttemptStep :=
  fun _ => ⟨.resp 302 (some "evil.example") true none, .exn, 0⟩

/-- Witness for C1 at concrete inputs: a disallowed request host is rejected
with zero dispatches, and an allowlisted request whose response redirects to a
disallowed host is rejected after exactly one dispatch. -/
theorem C1_get_client_allowlist_safety_witness :
    robloxGetJson (.parsed "evil.example") c1Trace =
      ⟨.failure "Host not allowed", [], 0, []⟩ ∧
    robloxGetJson (.parsed "games.roblox.com") c1Trace =
      ⟨.failure "Redirect host not allowed", ["games.roblox.com"], 1, []⟩ :=
  ⟨C1_get_client_allowlist_safety.2.1 "evil.example" c1Trace (by decide),
    C1_get_client_allowlist_safety.2.2.2.1 "games.roblox.com" c1Trace
      302 "evil.example" true none (by decide) rfl (by decide) (by decide)
      (by decide)⟩

-- ---- C4: retry policy ----

/-- The retryable statuses are exactly the six listed ones. -/
theorem isRetryableStatus_iff (s : Nat) :
    isRetryableStatus s = true ↔
      s = 408 ∨ s = 429 ∨ s = 500 ∨ s = 502 ∨ s = 503 ∨ s = 504 := by
  simp only [isRetryableStatus, Bool.or_eq_true, beq_iff_eq]
  tauto

/-- Every retryable status is at least 400 (hence neither 2xx nor 3xx). -/
theorem retryable_ge_400 (s : Nat) (h : isRetryableStatus s = true) :
    400 ≤ s := by
  rcases (isRetryableStatus_iff s).mp h with rfl | rfl | rfl | rfl | rfl | rfl <;>
    omega

/-- The loop makes at most `fuel` attempts. -/
theorem gjLoop_attempts (urlHost : String) (trace : Nat → AttemptStep) :
    ∀ (fuel attempt : Nat), (gjLoop urlHost trace attempt fuel).attempts ≤ fuel := by
  intro fuel
  induction fuel with
  | zero => intro attempt; simp [gjLoop]
  | succ n ih =>
    intro attempt
    unfold gjLoop
    rcases hOnce : (fetchTextOnce urlHost (trace attempt)).1 with _ | bh |
        ⟨status, jsonOk, ra⟩ <;> simp only [hOnce]
    · split
      · simp
      · simpa using Nat.succ_le_succ (ih (attempt + 1))
    · simp
    · split
      · split <;> simp
      · split
        · simpa using Nat.succ_le_succ (ih (attempt + 1))
        · simp

/-- The loop's output depends only on the trace from the current attempt
onwards. -/
theorem gjLoop_congr (urlHost : String) (t t' : Nat → AttemptStep) :
    ∀ (fuel attempt : Nat), (∀ i, attempt ≤ i → t i = t' i) →
      gjLoop urlHost t attempt fuel = gjLoop urlHost t' attempt fuel := by
  intro fuel
  induction fuel with
  | zero => intro attempt _; rfl
  | succ n ih =>
    intro attempt hag
    have hrest : gjLoop urlHost t (attempt + 1) n =
        gjLoop urlHost t' (attempt + 1) n :=
      ih (attempt + 1) (fun i hi => hag i (Nat.le_of_succ_le hi))
    unfold gjLoop
    rw [← hag attempt le_rfl, hrest]

/-- Unfolding equation: `computeBackoffMs` with a present hint. -/
theorem computeBackoffMs_some (k : Nat) (r : Int) (j : Nat) :
    computeBackoffMs k (some r) j =
      if r > 0 then clampInt r 0 RETRY_MAX_DELAY_MS
      else clampInt (RETRY_BASE_DELAY_MS * 2 ^ (k - 1) + (j : Int))
        RETRY_BASE_DELAY_MS RETRY_MAX_DELAY_MS := rfl

/-- Unfolding equation: `computeBackoffMs` with no hint. -/
theorem computeBackoffMs_none (k : Nat) (j : Nat) :
    computeBackoffMs k none j =
      clampInt (RETRY_BASE_DELAY_MS * 2 ^ (k - 1) + (j : Int))
        RETRY_BASE_DELAY_MS RETRY_MAX_DELAY_MS := rfl

/-- A non-final attempt observing a retryable status (no redirect) retries:
one more dispatch, and the computed backoff is slept before the rest of the
run. -/
theorem gjLoop_retry_step (host : String) (trace : Nat → AttemptStep)
    (attempt fuel : Nat) (s : Nat) (jk : Bool) (ra : Option Int)
    (hf : (trace attempt).first = .resp s none jk ra)
    (hr : isRetryableStatus s = true) (hfuel : ¬ fuel = 0) :
    gjLoop host trace attempt (fuel + 1) =
      ⟨(gjLoop host trace (attempt + 1) fuel).result,
       host :: (gjLoop host trace (attempt + 1) fuel).hosts,
       (gjLoop host trace (attempt + 1) fuel).attempts + 1,
       computeBackoffMs attempt ra (trace attempt).jitter ::
         (gjLoop host trace (attempt + 1) fuel).waits⟩ := by
  have hge := retryable_ge_400 s hr
  have honce : fetchTextOnce host (trace attempt) = (.got s jk ra, [host]) := by
    unfold fetchTextOnce
    rw [hf]
    have h3 : ¬ (300 ≤ s ∧ s < 400) := by omega
    simp [h3]
  have hn2 : ¬ (200 ≤ s ∧ s < 300) := by omega
  conv_lhs => unfold gjLoop
  simp [honce, hn2, hr, hfuel]

/-- A non-final attempt whose dispatch throws retries under the same schedule
(with no rate-limit hint). -/
theorem gjLoop_thrown_step (host : String) (trace : Nat → AttemptStep)
    (attempt fuel : Nat) (hf : (trace attempt).first = .exn)
    (hfuel : ¬ fuel = 0) :
    gjLoop host trace attempt (fuel + 1) =
      ⟨(gjLoop host trace (attempt + 1) fuel).result,
       host :: (gjLoop host trace (attempt + 1) fuel).hosts,
       (gjLoop host trace (attempt + 1) fuel).attempts + 1,
       computeBackoffMs attempt none (trace attempt).jitter ::
         (gjLoop host trace (attempt + 1) fuel).waits⟩ := by
  have honce : fetchTextOnce host (trace attempt) = (.thrown, [host]) := by
    unfold fetchTextOnce
    rw [hf]
  conv_lhs => unfold gjLoop
  simp [honce, hfuel]

/-- The final attempt performs exactly one `fetchTextOnce` and schedules no
further backoff. -/
theorem gjLoop_last (urlHost : String) (trace : Nat → AttemptStep)
    (attempt : Nat) :
    (gjLoop urlHost trace attempt 1).attempts = 1 ∧
      (gjLoop urlHost trace attempt 1).waits = [] := by
  unfold gjLoop
  rcases hOnce : (fetchTextOnce urlHost (trace attempt)).1 with _ | bh |
      ⟨status, jsonOk, ra⟩ <;> simp only [hOnce]
  · simp
  · simp
  · split
    · split <;> simp
    · split
      · simp_all
      · simp

/-- C4: the retry policy of the upstream client — the retryable statuses are
exactly {408, 429, 500, 502, 503, 504}; at most `MAX_ATTEMPTS = 4` attempts
per logical call; a present positive `Retry-After` hint is used clamped to at
most 8000 ms while a non-positive hint falls back to the exponential path
`600·2^(attempt-1) + jitter` clamped into [600, 8000]; `parseRetryAfterMs`
yields the clamped seconds or HTTP-date value (always within [0, 8000]); a
run whose first three attempts see retryable statuses sleeps exactly the
computed backoff before each retry and stops at the fourth attempt; and
replacing a transport exception by a retryable status (with no rate-limit
hint) at a non-final attempt leaves the whole run unchanged — exceptions are
retried under the same schedule and cap. -/
theorem C4_retry_policy :
    (∀ s, isRetryableStatus s = true ↔
      s = 408 ∨ s = 429 ∨ s = 500 ∨ s = 502 ∨ s = 503 ∨ s = 504) ∧
    (∀ url trace, (robloxGetJson url trace).attempts ≤ 4) ∧
    (∀ k r j, 0 < r → computeBackoffMs k (some r) j = min 8000 r) ∧
    (∀ k r j, r ≤ 0 → computeBackoffMs k (some r) j = computeBackoffMs k none j) ∧
    (∀ k j, computeBackoffMs k none j =
        max 600 (min 8000 (600 * 2 ^ (k - 1) + (j : Int))) ∧
      600 ≤ computeBackoffMs k none j ∧ computeBackoffMs k none j ≤ 8000) ∧
    (∀ raw nf df v, parseRetryAfterMs raw nf df = some v → 0 ≤ v ∧ v ≤ 8000) ∧
    (∀ r nf df a, nf r = some a → 0 < a →
      parseRetryAfterMs (some r) nf df =
        some (clampInt (jsTrunc (a * 1000)) 0 8000)) ∧
    (∀ host trace s1 s2 s3 jk1 jk2 jk3 ra1 ra2 ra3, host ∈ ALLOWED_HOSTS →
      (trace 1).first = .resp s1 none jk1 ra1 → isRetryableStatus s1 = true →
      (trace 2).first = .resp s2 none jk2 ra2 → isRetryableStatus s2 = true →
      (trace 3).first = .resp s3 none jk3 ra3 → isRetryableStatus s3 = true →
      (robloxGetJson (.parsed host) trace).waits =
        [computeBackoffMs 1 ra1 (trace 1).jitter,
         computeBackoffMs 2 ra2 (trace 2).jitter,
         computeBackoffMs 3 ra3 (trace 3).jitter] ∧
      (robloxGetJson (.parsed host) trace).attempts = 4) ∧
    (∀ host t t' snd, host ∈ ALLOWED_HOSTS →
      (∀ i, ¬ i = 1 → t' i = t i) →
      (t 1).first = .exn →
      t' 1 = ⟨.resp 500 none false none, snd, (t 1).jitter⟩ →
      robloxGetJson (.parsed host) t = robloxGetJson (.parsed host) t') := by
  refine ⟨isRetryableStatus_iff, ?_, ?_, ?_, ?_, ?_, ?_, ?_, ?_⟩
  · intro url trace
    rcases url with _ | host
    · simp [robloxGetJson]
    · by_cases hA : host ∈ ALLOWED_HOSTS
      · simpa [robloxGetJson, hA] using
          gjLoop_attempts host trace MAX_ATTEMPTS 1
      · simp [robloxGetJson, hA]
  · intro k r j hr
    rw [computeBackoffMs_some, if_pos hr]
    simp only [clampInt, RETRY_MAX_DELAY_MS]
    omega
  · intro k r j hr
    have hnr : ¬ r > 0 := by omega
    rw [computeBackoffMs_some, if_neg hnr, computeBackoffMs_none]
  · intro k j
    refine ⟨computeBackoffMs_none k j, ?_, ?_⟩ <;>
      · rw [computeBackoffMs_none]
        simp only [clampInt, RETRY_BASE_DELAY_MS, RETRY_MAX_DELAY_MS]
        omega
  · intro raw nf df v hv
    rcases raw with _ | r
    · simp [parseRetryAfterMs] at hv
    · simp only [parseRetryAfterMs] at hv
      rcases hnf : nf r with _ | a <;> simp only [hnf] at hv
      · rcases hdf : df r with _ | d <;> simp only [hdf] at hv
        · exact absurd hv (by simp)
        · split at hv
          · rcases hv with ⟨rfl⟩
            simp only [clampInt, RETRY_MAX_DELAY_MS]
            omega
          · exact absurd hv (by simp)
      · split at hv
        · rcases hv with ⟨rfl⟩
          simp only [clampInt, RETRY_MAX_DELAY_MS]
          omega
        · rcases hdf : df r with _ | d <;> simp only [hdf] at hv
          · exact absurd hv (by simp)
          · split at hv
            · rcases hv with ⟨rfl⟩
              simp only [clampInt, RETRY_MAX_DELAY_MS]
              omega
            · exact absurd hv (by simp)
  · intro r nf df a ha hpos
    simp [parseRetryAfterMs, ha, hpos, RETRY_MAX_DELAY_MS]
  · intro host trace s1 s2 s3 jk1 jk2 jk3 ra1 ra2 ra3 hA h1 hr1 h2 hr2 h3 hr3
    have e1 := gjLoop_retry_step host trace 1 3 s1 jk1 ra1 h1 hr1 (by omega)
    have e2 := gjLoop_retry_step host trace 2 2 s2 jk2 ra2 h2 hr2 (by omega)
    have e3 := gjLoop_retry_step host trace 3 1 s3 jk3 ra3 h3 hr3 (by omega)
    have hlast := gjLoop_last host trace 4
    norm_num at e1 e2 e3
    simp only [robloxGetJson, hA, if_true, MAX_ATTEMPTS, e1, e2, e3,
      hlast.1, hlast.2]
    constructor <;> trivial
  · intro host t t' snd hA hagree hexn hswap
    have hrest : gjLoop host t 2 3 = gjLoop host t' 2 3 :=
      gjLoop_congr host t t' 3 2
        (fun i hi => (hagree i (by omega)).symm)
    have hswapf : (t' 1).first = .resp 500 none false none := by rw [hswap]
    have hj' : (t' 1).jitter = (t 1).jitter := by rw [hswap]
    have e1 := gjLoop_thrown_step host t 1 3 hexn (by omega)
    have e2 := gjLoop_retry_step host t' 1 3 500 false none hswapf rfl (by omega)
    norm_num at e1 e2
    simp only [robloxGetJson, hA, if_true, MAX_ATTEMPTS, e1, e2, hrest, hj']

/-- Oracle for the C4 witness: every attempt answers 429 with a 2000 ms
parsed `Retry-After` hint. -/
def c4Trace : Nat → AttemptStep :=
  fun _ => ⟨.resp 429 none true (some 2000), .exn, 17⟩

/-- Oracle for the C4 witness: the first attempt throws, later attempts
succeed. -/
def c4TraceExn : Nat → AttemptStep :=
  fun i => if i = 1 then ⟨.exn, .exn, 5⟩ else ⟨.resp 200 none true none, .exn, 0⟩

/-- Oracle for the C4 witness: like `c4TraceExn` but the first attempt
answers a retryable 500 instead of throwing. -/
def c4TraceSwap : Nat → AttemptStep :=
  fun i =>
    if i = 1 then ⟨.resp 500 none false none, .exn, 5⟩
    else ⟨.resp 200 none true none, .exn, 0⟩

/-- Witness for C4 at concrete inputs: three 429 responses with a 2000 ms
hint produce exactly the three computed backoffs and four attempts; the hint
is the clamped delay; and a first-attempt exception runs identically to a
first-attempt retryable 500. -/
theorem C4_retry_policy_witness :
    ((robloxGetJson (.parsed "apis.roblox.com") c4Trace).waits =
        [computeBackoffMs 1 (some 2000) 17, computeBackoffMs 2 (some 2000) 17,
         computeBackoffMs 3 (some 2000) 17] ∧
      (robloxGetJson (.parsed "apis.roblox.com") c4Trace).attempts = 4) ∧
    computeBackoffMs 1 (some 2000) 17 = min 8000 2000 ∧
    robloxGetJson (.parsed "apis.roblox.com") c4TraceExn =
      robloxGetJson (.parsed "apis.roblox.com") c4TraceSwap :=
  ⟨C4_retry_policy.2.2.2.2.2.2.2.1 "apis.roblox.com" c4Trace 429 429 429
      true true true (some 2000) (some 2000) (some 2000) (by decide) rfl
      (by decide) rfl (by decide) rfl (by decide),
   C4_retry_policy.2.2.1 1 2000 17 (by decide),
   C4_retry_policy.2.2.2.2.2.2.2.2 "apis.roblox.com" c4TraceExn c4TraceSwap
     .exn (by decide) (fun i hi => by simp [c4TraceExn, c4TraceSwap, hi])
     rfl rfl⟩

-- ---- Fault bookkeeping: which step tags the pipeline can emit ----

/-- The step tags the pipeline stages can attach to a fault (notably neither
`validate` nor `fatal`, which only the handler's validation and catch paths
emit). -/
def pipelineStep (f : Fault) : Prop :=
  f.step = "games.list" ∨ f.step = "universes.fromPlace" ∨
    f.step = "gamepasses.list" ∨ f.step = "inventory.list" ∨
    f.step = "catalog.details" ∨ f.step = "groups.get"

/-- Recording a game pass never touches the fault list. -/
theorem gpStep_errs (numOf : String → Option Rat) (st : GpSt)
    (gp : GamePassRaw) : (gpStep numOf st gp).errs = st.errs := by
  unfold gpStep
  rcases hid : gp.id <;> simp only [hid] <;> try rfl
  split
  · rfl
  split
  · rfl
  rcases hp : parseRobuxPrice gp.price numOf with _ | price <;> simp only [hp]
  split <;> rfl

/-- Folding `gpStep` over a page of passes never touches the fault list. -/
theorem gpFold_errs (numOf : String → Option Rat) (l : List GamePassRaw) :
    ∀ st : GpSt, (l.foldl (gpStep numOf) st).errs = st.errs := by
  induction l with
  | nil => intro st; rfl
  | cons a rest ih =>
    intro st
    simp only [List.foldl_cons]
    rw [ih, gpStep_errs]

/-- Faults added by the per-universe paging loop carry the
`gamepasses.list` step. -/
theorem gpPages_errs (numOf : String → Option Rat)
    (fetch : Nat → UpJson GpPage) :
    ∀ (fuel page : Nat) (st : GpSt) (f : Fault),
      f ∈ (gpPages numOf fetch page fuel st).errs →
      f ∈ st.errs ∨ f.step = "gamepasses.list" := by
  intro fuel
  induction fuel with
  | zero => intro page st f hf; exact Or.inl hf
  | succ n ih =>
    intro page st f hf
    unfold gpPages at hf
    rcases hfp : fetch page with m | _ | pg <;> simp only [hfp] at hf
    · rcases List.mem_append.mp hf with h | h
      · exact Or.inl h
      · simp only [List.mem_singleton] at h
        subst h
        exact Or.inr rfl
    · exact Or.inl hf
    · rcases htok : getNextPageToken pg.nextPageToken with _ | tk <;>
        simp only [htok] at hf
      · rw [gpFold_errs] at hf
        exact Or.inl hf
      · rcases ih (page + 1) (pg.passes.foldl (gpStep numOf) st) f hf with h | h
        · rw [gpFold_errs] at h
          exact Or.inl h
        · exact Or.inr h

/-- Every stage-C fault carries the `gamepasses.list` step. -/
theorem gamepassStage_errs (numOf : String → Option Rat)
    (fetchU : Rat → Nat → UpJson GpPage) (maxPages : Nat)
    (unis : List Rat) :
    ∀ f ∈ (gamepassStage numOf fetchU maxPages unis).errs,
      f.step = "gamepasses.list" := by
  unfold gamepassStage
  refine foldlInv (P := fun (st : GpSt) => ∀ f ∈ st.errs, f.step = "gamepasses.list")
    _ ?_ unis ⟨[], [], []⟩ (by simp)
  intro st u hst f hf
  rcases gpPages_errs numOf (fetchU u) maxPages 0 st f hf with h | h
  · exact hst f h
  · exact h

/-- Faults added by the inventory paging loop carry the `inventory.list`
step. -/
theorem invPages_errs (numOf : String → Option Rat)
    (fetch : Nat → UpJson InvPage) :
    ∀ (fuel page : Nat) (acc : List Rat × List Fault) (f : Fault),
      f ∈ (invPages numOf fetch page fuel acc).2 →
      f ∈ acc.2 ∨ f.step = "inventory.list" := by
  intro fuel
  induction fuel with
  | zero => intro page acc f hf; exact Or.inl hf
  | succ n ih =>
    intro page acc f hf
    unfold invPages at hf
    rcases hfp : fetch page with m | _ | pg <;> simp only [hfp] at hf
    · rcases List.mem_append.mp hf with h | h
      · exact Or.inl h
      · simp only [List.mem_singleton] at h
        subst h
        exact Or.inr rfl
    · exact Or.inl hf
    · rcases htok : getNextPageToken pg.nextPageToken with _ | tk <;>
        simp only [htok] at hf
      · exact Or.inl hf
      · have h2 := ih (page + 1) _ f hf
        simpa using h2

/-- Every stage-D fault carries the `inventory.list` step. -/
theorem inventoryStage_errs (numOf : String → Option Rat)
    (fetchInv : String → Nat → UpJson InvPage) (maxPages : Nat) :
    ∀ f ∈ (inventoryStage numOf fetchInv maxPages).2,
      f.step = "inventory.list" := by
  intro f hf
  unfold inventoryStage at hf
  simp only [List.mem_append] at hf
  rcases hf with (hf | hf) | hf <;>
    · rcases invPages_errs numOf _ maxPages 0 ([], []) f hf with h | h
      · simp at h
      · exact h

/-- Faults added by a group-owner probe carry the `groups.get` step. -/
theorem getGroupOwner_errs (groupOwner : Rat → UpJson (Option Int))
    (cache : List (Rat × Option Int)) (gid : Rat) :
    ∀ f ∈ (getGroupOwner groupOwner cache gid).2.2, f.step = "groups.get" := by
  intro f hf
  unfold getGroupOwner at hf
  rcases hc : objGet cache gid with _ | o
  · simp only [hc] at hf
    rcases hg : groupOwner gid with m | _ | o
    · simp only [hg] at hf
      simp only [List.mem_singleton] at hf
      subst hf
      rfl
    · simp only [hg] at hf
      exact absurd hf (List.not_mem_nil f)
    · simp only [hg] at hf
      exact absurd hf (List.not_mem_nil f)
  · simp only [hc] at hf
    exact absurd hf (List.not_mem_nil f)

/-- Faults added by a deferred ownership check carry the `groups.get`
step. -/
theorem deferredStep_errs (groupOwner : Rat → UpJson (Option Int))
    (userId : Int) (st : EState) (d : Deferred) :
    ∀ f ∈ (deferredStep groupOwner userId st d).errs,
      f ∈ st.errs ∨ f.step = "groups.get" := by
  intro f hf
  have hprobe := getGroupOwner_errs groupOwner st.cache d.probeId
  simp only [deferredStep] at hf
  rcases hg : (getGroupOwner groupOwner st.cache d.probeId).1 with _ | ow <;>
    simp only [hg] at hf
  · split at hf <;>
      · rcases List.mem_append.mp hf with h | h
        · exact Or.inl h
        · exact Or.inr (hprobe f h)
  · split at hf <;>
      · rcases List.mem_append.mp hf with h | h
        · exact Or.inl h
        · exact Or.inr (hprobe f h)

/-- The synchronous batch pass adds no faults; the deferred probes add only
`groups.get` faults. -/
theorem processBatch_errs (numOf : String → Option Rat)
    (groupOwner : Rat → UpJson (Option Int)) (userId : Int)
    (lookup : List (Rat × String)) (st : EState)
    (items : List CatalogItem) :
    ∀ f ∈ (processBatch numOf groupOwner userId lookup st items).errs,
      f ∈ st.errs ∨ f.step = "groups.get" := by
  intro f hf
  simp only [processBatch] at hf
  refine foldlInv
    (P := fun (e : EState) => ∀ g ∈ e.errs, g ∈ st.errs ∨ g.step = "groups.get")
    (deferredStep groupOwner userId) ?_
    ((items.foldl (catalogItemSync numOf userId lookup) (st.data, [])).2)
    { st with data :=
        (items.foldl (catalogItemSync numOf userId lookup) (st.data, [])).1 }
    (fun g hg => Or.inl hg) f hf
  intro e d he g hg
  rcases deferredStep_errs groupOwner userId e d g hg with h | h
  · exact he g h
  · exact Or.inr h

/-- Every stage-E fault carries the `catalog.details` or `groups.get`
step. -/
theorem catalogStage_errs (numOf : String → Option Rat)
    (catBatch : Nat → UpJson (List CatalogItem))
    (groupOwner : Rat → UpJson (Option Int)) (userId : Int)
    (lookup : List (Rat × String)) (batchCount : Nat) (st0 : EState) :
    ∀ f ∈ (catalogStage numOf catBatch groupOwner userId lookup batchCount
        st0).errs,
      f ∈ st0.errs ∨ f.step = "catalog.details" ∨ f.step = "groups.get" := by
  unfold catalogStage
  refine foldlInv
    (P := fun (e : EState) => ∀ f ∈ e.errs,
      f ∈ st0.errs ∨ f.step = "catalog.details" ∨ f.step = "groups.get")
    _ ?_ _ st0 (fun f hf => Or.inl hf)
  intro e bi he f hf
  rcases hb : catBatch bi with m | _ | items <;> simp only [hb] at hf
  · rcases List.mem_append.mp hf with h | h
    · exact he f h
    · simp only [List.mem_singleton] at h
      subst h
      exact Or.inr (Or.inl rfl)
  · exact he f hf
  · rcases processBatch_errs numOf groupOwner userId lookup e items f hf with h | h
    · exact he f h
    · exact Or.inr (Or.inr h)

/-- Every fault of the clothing stage carries the `inventory.list`,
`catalog.details` or `groups.get` step. -/
theorem clothingStage_errs (numOf : String → Option Rat)
    (fetchInv : String → Nat → UpJson InvPage)
    (catBatch : Nat → UpJson (List CatalogItem))
    (groupOwner : Rat → UpJson (Option Int)) (userId : Int)
    (maxInvPages : Nat) (data : DataObj) :
    ∀ f ∈ (clothingStage numOf fetchInv catBatch groupOwner userId maxInvPages
        data).2,
      f.step = "inventory.list" ∨ f.step = "catalog.details" ∨
        f.step = "groups.get" := by
  intro f hf
  simp only [clothingStage] at hf
  have hinv := inventoryStage_errs numOf fetchInv maxInvPages
  split at hf
  · exact Or.inl (hinv f hf)
  · simp only [List.mem_append] at hf
    rcases hf with h | h
    · exact Or.inl (hinv f h)
    · rcases catalogStage_errs numOf catBatch groupOwner userId _ _ _ f h with
        h' | h'
      · simp at h'
      · exact Or.inr h'

/-- Every fault of stage B carries the `universes.fromPlace` step. -/
theorem universesStage_errs (o : Oracles) (placeIds : List Rat) :
    ∀ f ∈ (universesStage o placeIds).2, f.step = "universes.fromPlace" := by
  unfold universesStage
  refine foldlInv
    (P := fun (acc : List Rat × List Fault) => ∀ f ∈ acc.2,
      f.step = "universes.fromPlace") _ ?_ placeIds ([], []) (by simp)
  intro acc pid hacc f hf
  rcases hu : o.universeOf pid with m | _ | v <;> simp only [hu] at hf
  · rcases List.mem_append.mp hf with h | h
    · exact hacc f h
    · simp only [List.mem_singleton] at h
      subst h
      rfl
  · exact hacc f hf
  · rcases v <;> simp only [] at hf <;>
      first
        | exact hacc f hf
        | (rcases List.mem_append.mp hf with h | h
           · exact hacc f h
           · simp only [List.mem_singleton] at h
             subst h
             rfl)

/-- Every fault of stage A carries the `games.list` step. -/
theorem gamesStage_errs (o : Oracles) :
    ∀ f ∈ (gamesStage o).2, f.step = "games.list" := by
  intro f hf
  simp only [gamesStage] at hf
  rcases hg : o.games with m | _ | d <;> simp only [hg] at hf
  · simp only [List.mem_singleton] at hf
    subst hf
    rfl
  · exact absurd hf (List.not_mem_nil f)
  · exact absurd hf (List.not_mem_nil f)

/-- Every fault the pipeline records carries a stage step tag — in
particular neither `validate` nor `fatal`. -/
theorem runPipeline_errors_steps (userId : Int) (q : QueryInput)
    (o : Oracles) :
    ∀ f ∈ (runPipeline userId q o).body.errors, pipelineStep f := by
  intro f hf
  simp only [runPipeline, List.mem_append] at hf
  rcases hf with ((hf | hf) | hf) | hf
  · exact Or.inl (gamesStage_errs o f hf)
  · exact Or.inr (Or.inl (universesStage_errs o _ f hf))
  · revert hf
    split
    · intro hf
      exact Or.inr (Or.inr (Or.inl (gamepassStage_errs _ _ _ _ f hf)))
    · intro hf
      simp at hf
  · revert hf
    split
    · intro hf
      rcases clothingStage_errs _ _ _ _ _ _ _ f hf with h | h | h
      · exact Or.inr (Or.inr (Or.inr (Or.inl h)))
      · exact Or.inr (Or.inr (Or.inr (Or.inr (Or.inl h))))
      · exact Or.inr (Or.inr (Or.inr (Or.inr (Or.inr h))))
    · intro hf
      simp at hf

/-- A pipeline fault's step is never `validate`. -/
theorem pipelineStep_not_validate (f : Fault) (h : pipelineStep f) :
    ¬ f.step = "validate" := by
  rcases h with h | h | h | h | h | h <;> rw [h] <;> decide

/-- A pipeline fault's step is never `fatal`. -/
theorem pipelineStep_not_fatal (f : Fault) (h : pipelineStep f) :
    ¬ f.step = "fatal" := by
  rcases h with h | h | h | h | h | h <;> rw [h] <;> decide

/-- The final assembly sets `ok` to the emptiness of the very `errors` list it
returns. -/
theorem runPipeline_ok_iff (uid : Int) (q : QueryInput) (o : Oracles) :
    (runPipeline uid q o).body.ok = true ↔
      (runPipeline uid q o).body.errors = [] := by
  simp [runPipeline]

/-- No fault the handler itself returns carries the `fatal` step. -/
theorem handler_no_fatal (m : String) (q : QueryInput) (o : Oracles) :
    ∀ f ∈ (handler m q o).body.errors, ¬ f.step = "fatal" := by
  intro f hf
  unfold handler at hf
  split at hf
  · simp only [validationFailure, List.mem_singleton] at hf
    subst hf
    decide
  · rcases h : toInt q.userId o.numOf with _ | u <;> simp only [h] at hf
    · simp only [validationFailure, List.mem_singleton] at hf
      subst hf
      decide
    · split at hf
      · simp only [validationFailure, List.mem_singleton] at hf
        subst hf
        decide
      · exact pipelineStep_not_fatal f (runPipeline_errors_steps u q o f hf)

-- ---- C2: ok ↔ no faults; summary counts derived from live buckets ----

/-- C2: in every response body the handler produces, `ok` is true exactly when
the `errors` list is empty (also on the fatal path, where `ok` is forced false
and the appended fault makes `errors` non-empty), and at final assembly
`summary.gamepasses` is the size of the GAMEPASS bucket while
`summary.clothing` is the sum of the three clothing bucket sizes. -/
theorem C2_ok_iff_errors_empty_and_summary_counts :
    (∀ m q o, ((handler m q o).body.ok = true ↔
      (handler m q o).body.errors = [])) ∧
    (∀ prior, (fatalAssemble prior).body.ok = false ∧
      ¬ (fatalAssemble prior).body.errors = []) ∧
    (∀ uid q o,
      (runPipeline uid q o).body.summary.gamepasses =
        ((objGet (runPipeline uid q o).body.Data "GAMEPASS").getD []).length ∧
      (runPipeline uid q o).body.summary.clothing =
        ((objGet (runPipeline uid q o).body.Data "CLASSIC_TSHIRT").getD
          []).length +
        ((objGet (runPipeline uid q o).body.Data "CLASSIC_SHIRT").getD
          []).length +
        ((objGet (runPipeline uid q o).body.Data "CLASSIC_PANTS").getD
          []).length) := by
  refine ⟨?_, ?_, fun uid q o => ⟨rfl, rfl⟩⟩
  · intro m q o
    unfold handler
    split
    · simp [validationFailure]
    · rcases h : toInt q.userId o.numOf with _ | u <;> simp only [h]
      · simp [validationFailure]
      · split
        · simp [validationFailure]
        · exact runPipeline_ok_iff u q o
  · intro prior
    simp [fatalAssemble]

-- ---- C3: the transport status is always 200 ----

/-- C3: the handler answers HTTP 200 on every path — non-GET methods and
missing/invalid `userId` yield 200 with `ok:false` and a single `validate`
fault, and the outermost catch yields 200 with `ok:false` and exactly one
`fatal` fault appended to whatever the body already held. -/
theorem C3_always_http_200 :
    (∀ m q o, (handler m q o).status = 200 ∧
      (fatalAssemble (handler m q o).body).status = 200) ∧
    (∀ m q o, ¬ m = "GET" →
      (handler m q o).body.ok = false ∧
      (handler m q o).body.errors =
        [⟨"validate", "Method not allowed (GET only)"⟩]) ∧
    (∀ q o, (toInt q.userId o.numOf = none ∨
        ∃ u, toInt q.userId o.numOf = some u ∧ u ≤ 0) →
      (handler "GET" q o).body.ok = false ∧
      (handler "GET" q o).body.errors =
        [⟨"validate",
          "Missing or invalid userId (must be a positive integer)"⟩]) ∧
    (∀ m q o,
      (fatalAssemble (handler m q o).body).body.ok = false ∧
      ((fatalAssemble (handler m q o).body).body.errors.countP
        (fun f => f.step == "fatal")) = 1) := by
  refine ⟨?_, ?_, ?_, ?_⟩
  · intro m q o
    refine ⟨?_, rfl⟩
    unfold handler
    split
    · rfl
    · rcases h : toInt q.userId o.numOf with _ | u <;> simp only [h]
      · rfl
      · split
        · rfl
        · rfl
  · intro m q o hm
    unfold handler
    rw [if_pos hm]
    exact ⟨rfl, rfl⟩
  · intro q o hbad
    unfold handler
    rw [if_neg (by simp)]
    rcases hbad with h | ⟨u, hu, hle⟩
    · rw [h]
      exact ⟨rfl, rfl⟩
    · rw [hu]
      simp only [if_pos hle]
      exact ⟨rfl, rfl⟩
  · intro m q o
    refine ⟨rfl, ?_⟩
    have hz : ((handler m q o).body.errors.countP
        (fun f => f.step == "fatal")) = 0 := by
      rw [List.countP_eq_zero]
      intro f hf
      have := handler_no_fatal m q o f hf
      simpa using this
    simp [fatalAssemble, List.countP_append, hz]

/-- All-absent query input used by several witnesses. -/
def q0 : QueryInput := ⟨.undef, .undef, .undef, .undef, .undef, .undef, .undef⟩

/-- Inert upstream oracle used by several witnesses: every call parses to the
JSON value `null` and the platform number parser accepts nothing. -/
def trivOracles : Oracles :=
  { numOf := fun _ => none
    games := .nullJson
    universeOf := fun _ => .nullJson
    gpPage := fun _ _ => .nullJson
    invPage := fun _ _ => .nullJson
    catBatch := fun _ => .nullJson
    groupOwner := fun _ => .nullJson }

/-- Witness for C3 at concrete inputs: a POST and an invalid userId each get
the 200/`validate` treatment. -/
theorem C3_always_http_200_witness :
    ((handler "POST" q0 trivOracles).body.ok = false ∧
      (handler "POST" q0 trivOracles).body.errors =
        [⟨"validate", "Method not allowed (GET only)"⟩]) ∧
    ((handler "GET" q0 trivOracles).body.ok = false ∧
      (handler "GET" q0 trivOracles).body.errors =
        [⟨"validate",
          "Missing or invalid userId (must be a positive integer)"⟩]) :=
  ⟨C3_always_http_200.2.1 "POST" q0 trivOracles (by decide),
   C3_always_http_200.2.2.1 q0 trivOracles (Or.inl (by decide))⟩

-- ---- C10: userId validation truncates toward zero ----

/-- C10: a userId query string whose JS `Number` conversion is finite is
truncated toward zero by `toInt`; when the truncation is a positive integer
the handler proceeds with it (no `validate` fault is recorded), and the
`validate` fault appears exactly when the truncated value is missing or
non-positive. -/
theorem C10_userid_truncation :
    (∀ (s : String) (nf : String → Option Rat) (qv : Rat),
      ¬ jsTrim s = "" → nf (jsTrim s) = some qv →
      toInt (.str s) nf = some (jsTrunc qv)) ∧
    (∀ q o userId, toInt q.userId o.numOf = some userId → 0 < userId →
      handler "GET" q o = runPipeline userId q o ∧
      (handler "GET" q o).body.userId = userId ∧
      ∀ f ∈ (handler "GET" q o).body.errors, ¬ f.step = "validate") ∧
    (∀ q o, (toInt q.userId o.numOf = none ∨
        ∃ u, toInt q.userId o.numOf = some u ∧ u ≤ 0) →
      (handler "GET" q o).body.errors =
        [⟨"validate",
          "Missing or invalid userId (must be a positive integer)"⟩]) := by
  refine ⟨?_, ?_, fun q o hbad => (C3_always_http_200.2.2.1 q o hbad).2⟩
  · intro s nf qv hs hnf
    simp [toInt, hs, hnf]
  · intro q o userId htoInt hpos
    have heq : handler "GET" q o = runPipeline userId q o := by
      unfold handler
      rw [if_neg (by simp), htoInt]
      simp only [if_neg (by omega : ¬ userId ≤ 0)]
    refine ⟨heq, ?_, ?_⟩
    · rw [heq]
      rfl
    · rw [heq]
      intro f hf
      exact pipelineStep_not_validate f (runPipeline_errors_steps userId q o f hf)

/-- The rational 3.9, built without normalizing operations so that proofs can
evaluate it. -/
def c10Val : Rat := ⟨39, 10, by norm_num, by norm_num⟩

/-- Number-parser oracle for the C10 witness: parses exactly "3.9". -/
def c10NumOf : String → Option Rat :=
  fun t => if t = "3.9" then some c10Val else none

/-- Oracles for the C10 witness. -/
def c10Oracles : Oracles := { trivOracles with numOf := c10NumOf }

/-- Query for the C10 witness: `userId=3.9`. -/
def c10Query : QueryInput :=
  ⟨.str "3.9", .undef, .undef, .undef, .undef, .undef, .undef⟩

/-- Witness for C10 at the concrete input "3.9": the handler proceeds with the
truncated id 3 and records no `validate` fault. -/
theorem C10_userid_truncation_witness :
    toInt (.str "3.9") c10NumOf = some (jsTrunc c10Val) ∧
    (handler "GET" c10Query c10Oracles).body.userId = 3 ∧
    ∀ f ∈ (handler "GET" c10Query c10Oracles).body.errors,
      ¬ f.step = "validate" :=
  ⟨C10_userid_truncation.1 "3.9" c10NumOf c10Val (by decide) (by decide),
   (C10_userid_truncation.2.1 c10Query c10Oracles 3 (by decide) (by decide)).2.1,
   (C10_userid_truncation.2.1 c10Query c10Oracles 3 (by decide) (by decide)).2.2⟩

-- ---- C8: presence of the four type keys ----

/-- A successful lookup means the key is present. -/
theorem objGet_mem_keys [DecidableEq κ] (o : List (κ × α)) (k : κ) (v : α)
    (h : objGet o k = some v) : k ∈ o.map Prod.fst := by
  induction o with
  | nil => simp [objGet] at h
  | cons p rest ih =>
    unfold objGet at h
    split at h
    · simp_all
    · simp only [List.map_cons, List.mem_cons]
      exact Or.inr (ih h)

/-- Writing to a present key leaves the key list unchanged. -/
theorem objSet_keys_of_mem [DecidableEq κ] (o : List (κ × α)) (k : κ) (v : α)
    (h : k ∈ o.map Prod.fst) :
    (objSet o k v).map Prod.fst = o.map Prod.fst := by
  induction o with
  | nil => simp at h
  | cons p rest ih =>
    unfold objSet
    split
    · simp_all
    · simp only [List.map_cons, List.cons.injEq, true_and]
      rcases p with ⟨k', v'⟩
      simp only [List.map_cons, List.mem_cons] at h
      rcases h with h | h
      · simp_all
      · exact ih h

/-- A bucket write never changes the data object's type keys. -/
theorem dataWrite_keys (d : DataObj) (key : String) (id : Rat)
    (e : AssetEntry) :
    (dataWrite d key id e).map Prod.fst = d.map Prod.fst := by
  unfold dataWrite
  rcases h : objGet d key with _ | b
  · rfl
  · exact objSet_keys_of_mem d key _ (objGet_mem_keys d key b h)

/-- The synchronous batch pass never changes the data object's type keys. -/
theorem catalogItemSync_keys (numOf : String → Option Rat) (userId : Int)
    (lookup : List (Rat × String)) (acc : DataObj × List Deferred)
    (it : CatalogItem) :
    (catalogItemSync numOf userId lookup acc it).1.map Prod.fst =
      acc.1.map Prod.fst := by
  unfold catalogItemSync
  repeat' split
  all_goals first
    | rfl
    | exact dataWrite_keys acc.1 _ _ _

/-- A deferred ownership check never changes the data object's type keys. -/
theorem deferredStep_keys (groupOwner : Rat → UpJson (Option Int))
    (userId : Int) (st : EState) (d : Deferred) :
    (deferredStep groupOwner userId st d).data.map Prod.fst =
      st.data.map Prod.fst := by
  simp only [deferredStep]
  repeat' split
  all_goals first
    | rfl
    | exact dataWrite_keys st.data _ _ _

/-- Batch processing never changes the data object's type keys. -/
theorem processBatch_keys (numOf : String → Option Rat)
    (groupOwner : Rat → UpJson (Option Int)) (userId : Int)
    (lookup : List (Rat × String)) (st : EState)
    (items : List CatalogItem) :
    (processBatch numOf groupOwner userId lookup st items).data.map Prod.fst =
      st.data.map Prod.fst := by
  simp only [processBatch]
  have hsync : (items.foldl (catalogItemSync numOf userId lookup)
      (st.data, [])).1.map Prod.fst = st.data.map Prod.fst := by
    refine foldlInv
      (P := fun (acc : DataObj × List Deferred) =>
        acc.1.map Prod.fst = st.data.map Prod.fst)
      (catalogItemSync numOf userId lookup) ?_ items (st.data, []) rfl
    intro acc it hacc
    rw [catalogItemSync_keys, hacc]
  refine foldlInv
    (P := fun (e : EState) => e.data.map Prod.fst = st.data.map Prod.fst)
    (deferredStep groupOwner userId) ?_ _ _ hsync
  intro e dres he
  rw [deferredStep_keys, he]

/-- The whole batch loop never changes the data object's type keys. -/
theorem catalogStage_keys (numOf : String → Option Rat)
    (catBatch : Nat → UpJson (List CatalogItem))
    (groupOwner : Rat → UpJson (Option Int)) (userId : Int)
    (lookup : List (Rat × String)) (batchCount : Nat) (st0 : EState) :
    (catalogStage numOf catBatch groupOwner userId lookup batchCount
      st0).data.map Prod.fst = st0.data.map Prod.fst := by
  unfold catalogStage
  refine foldlInv
    (P := fun (e : EState) => e.data.map Prod.fst = st0.data.map Prod.fst)
    _ ?_ _ st0 rfl
  intro e bi he
  rcases catBatch bi with m | _ | items
  · simpa using he
  · simpa using he
  · simp only []
    rw [processBatch_keys, he]

/-- The clothing stage never changes the data object's type keys. -/
theorem clothingStage_keys (numOf : String → Option Rat)
    (fetchInv : String → Nat → UpJson InvPage)
    (catBatch : Nat → UpJson (List CatalogItem))
    (groupOwner : Rat → UpJson (Option Int)) (userId : Int)
    (maxInvPages : Nat) (data : DataObj) :
    (clothingStage numOf fetchInv catBatch groupOwner userId maxInvPages
      data).1.map Prod.fst = data.map Prod.fst := by
  simp only [clothingStage]
  split
  · rfl
  · exact catalogStage_keys _ _ _ _ _ _ _

/-- Every data object assembled by the pipeline carries exactly the four type
keys. -/
theorem runPipeline_data_keys (uid : Int) (q : QueryInput) (o : Oracles) :
    (runPipeline uid q o).body.Data.map Prod.fst = ASSET_LIST_KEYS := by
  have hkey : ∀ b : Bucket,
      (objSet initialData "GAMEPASS" b).map Prod.fst = ASSET_LIST_KEYS := by
    intro b
    rw [objSet_keys_of_mem initialData "GAMEPASS" b (by decide)]
    decide
  simp only [runPipeline]
  split
  · rw [clothingStage_keys]
    split
    · exact hkey _
    · decide
  · split
    · exact hkey _
    · decide

/-- Counterexample to C8 as stated: the early validation-failure responses
carry an empty `Data` object with none of the four type keys — here the
non-GET path. -/
theorem C8_counterexample_validation_data_empty :
    (handler "POST" q0 trivOracles).body.Data = [] ∧
    objGet (handler "POST" q0 trivOracles).body.Data "GAMEPASS" = none ∧
    objGet (handler "POST" q0 trivOracles).body.Data "CLASSIC_TSHIRT" = none ∧
    objGet (handler "GET" q0 trivOracles).body.Data "GAMEPASS" = none := by
  decide

/-- C8 as amended: every response assembled by the pipeline (a valid GET with
a positive integer userId) carries exactly the four type keys regardless of
which discovery stages ran, while the early validation-failure responses
return the empty data object with no type keys. -/
theorem C8_data_keys_amended :
    (∀ uid q o,
      (runPipeline uid q o).body.Data.map Prod.fst = ASSET_LIST_KEYS) ∧
    (∀ m, (validationFailure m).body.Data = []) :=
  ⟨runPipeline_data_keys, fun _ => rfl⟩

-- ---- C5: game-pass recording rules ----

/-- A successful lookup exhibits a member. -/
theorem objGet_mem [DecidableEq κ] (o : List (κ × α)) (k : κ) (v : α)
    (h : objGet o k = some v) : (k, v) ∈ o := by
  induction o with
  | nil => simp [objGet] at h
  | cons p rest ih =>
    rcases p with ⟨a, b⟩
    unfold objGet at h
    split at h
    · simp only [Option.some.injEq] at h
      simp only [List.mem_cons]
      left
      simp_all
    · exact List.mem_cons_of_mem _ (ih h)

/-- Members of a written object come from the original or are the written
pair. -/
theorem objSet_mem [DecidableEq κ] (o : List (κ × α)) (k : κ) (v : α) :
    ∀ p ∈ objSet o k v, p ∈ o ∨ p = (k, v) := by
  induction o with
  | nil => simp [objSet]
  | cons q rest ih =>
    intro p hp
    unfold objSet at hp
    split at hp
    · rcases List.mem_cons.mp hp with h | h
      · subst h
        simp_all
      · exact Or.inl (List.mem_cons_of_mem _ h)
    · rcases List.mem_cons.mp hp with h | h
      · exact Or.inl (by simp [h])
      · rcases ih p h with h' | h'
        · exact Or.inl (List.mem_cons_of_mem _ h')
        · exact Or.inr h'

/-- Writing one key leaves lookups of other keys unchanged. -/
theorem objGet_objSet_ne [DecidableEq κ] (o : List (κ × α)) (k k' : κ)
    (v : α) (hne : ¬ k = k') :
    objGet (objSet o k' v) k = objGet o k := by
  have hne' : ¬ k' = k := fun h => hne h.symm
  induction o with
  | nil => simp [objSet, objGet, hne']
  | cons q rest ih =>
    unfold objSet
    split
    · unfold objGet
      split
      · simp_all
      · simp_all [objGet]
    · unfold objGet
      split
      · rfl
      · exact ih

/-- Full behavioural characterization of recording one game pass: either the
pass is skipped and the state is untouched, or it has a finite numeric id not
yet seen, is flagged `isForSale === true`, has a strictly positive parsed
price, and it is recorded under the fallback display name with the fixed
type-id 34. -/
theorem gpStep_characterization (numOf : String → Option Rat) (st : GpSt)
    (gp : GamePassRaw) :
    gpStep numOf st gp = st ∨
    ∃ id price, gp.id = JsVal.num id ∧ id ∉ st.seen ∧
      gp.isForSale = JsVal.boolean true ∧
      parseRobuxPrice gp.price numOf = some price ∧ 0 < price ∧
      gpStep numOf st gp =
        ⟨id :: st.seen,
         objSet st.bucket id (makeAssetEntry (gpName gp id) "GAMEPASS" 34 price),
         st.errs⟩ := by
  unfold gpStep
  rcases hid : gp.id with q | _ | _ | _ | _ | _ <;> simp only [hid]
  · by_cases hseen : q ∈ st.seen
    · rw [if_pos hseen]
      exact Or.inl (by trivial)
    · rw [if_neg hseen]
      by_cases hsale : ¬ gp.isForSale = JsVal.boolean true
      · rw [if_pos hsale]
        exact Or.inl (by trivial)
      · rw [if_neg hsale]
        rcases hp : parseRobuxPrice gp.price numOf with _ | price <;>
          simp only [hp]
        · exact Or.inl (by trivial)
        · by_cases hpos : price ≤ 0
          · rw [if_pos hpos]
            exact Or.inl (by trivial)
          · rw [if_neg hpos]
            exact Or.inr ⟨q, price, rfl, hseen, not_not.mp hsale, rfl,
              not_le.mp hpos, rfl⟩
  all_goals exact Or.inl (by trivial)

/-- Keys of the recorded bucket always lie in the seen-set. -/
theorem gpStep_keys_sub (numOf : String → Option Rat) (st : GpSt)
    (gp : GamePassRaw) (hsub : ∀ p ∈ st.bucket, p.1 ∈ st.seen) :
    ∀ p ∈ (gpStep numOf st gp).bucket, p.1 ∈ (gpStep numOf st gp).seen := by
  rcases gpStep_characterization numOf st gp with h | ⟨id, price, _, _, _, _, _, h⟩
  · rw [h]
    exact hsub
  · rw [h]
    intro p hp
    rcases objSet_mem st.bucket id _ p hp with h' | h'
    · exact List.mem_cons_of_mem _ (hsub p h')
    · simp [h']

/-- Once a pass id is recorded, later passes never change its entry (first
occurrence wins). -/
theorem gpStep_preserves_entry (numOf : String → Option Rat) (st : GpSt)
    (gp : GamePassRaw) (id : Rat) (e : AssetEntry)
    (hsub : ∀ p ∈ st.bucket, p.1 ∈ st.seen)
    (he : objGet st.bucket id = some e) :
    objGet (gpStep numOf st gp).bucket id = some e := by
  rcases gpStep_characterization numOf st gp with h |
      ⟨id', price, _, hnseen, _, _, _, h⟩
  · rw [h]
    exact he
  · rw [h]
    have hin : id ∈ st.seen := hsub (id, e) (objGet_mem st.bucket id e he)
    have hne : ¬ id = id' := fun hc => hnseen (hc ▸ hin)
    rw [objGet_objSet_ne st.bucket id id' _ hne]
    exact he

/-- The entry-preservation and key-subset invariants lift to whole pages. -/
theorem gpFold_preserves (numOf : String → Option Rat)
    (l : List GamePassRaw) (st : GpSt) (id : Rat) (e : AssetEntry)
    (hsub : ∀ p ∈ st.bucket, p.1 ∈ st.seen)
    (he : objGet st.bucket id = some e) :
    (∀ p ∈ (l.foldl (gpStep numOf) st).bucket,
      p.1 ∈ (l.foldl (gpStep numOf) st).seen) ∧
    objGet (l.foldl (gpStep numOf) st).bucket id = some e := by
  refine foldlInv
    (P := fun (s : GpSt) => (∀ p ∈ s.bucket, p.1 ∈ s.seen) ∧
      objGet s.bucket id = some e)
    (gpStep numOf) ?_ l st ⟨hsub, he⟩
  intro s gp ⟨h1, h2⟩
  exact ⟨gpStep_keys_sub numOf s gp h1, gpStep_preserves_entry numOf s gp id e h1 h2⟩

/-- The invariants lift through the per-universe paging loop. -/
theorem gpPages_preserves (numOf : String → Option Rat)
    (fetch : Nat → UpJson GpPage) (id : Rat) (e : AssetEntry) :
    ∀ (fuel page : Nat) (st : GpSt),
      (∀ p ∈ st.bucket, p.1 ∈ st.seen) → objGet st.bucket id = some e →
      (∀ p ∈ (gpPages numOf fetch page fuel st).bucket,
        p.1 ∈ (gpPages numOf fetch page fuel st).seen) ∧
      objGet (gpPages numOf fetch page fuel st).bucket id = some e := by
  intro fuel
  induction fuel with
  | zero => intro page st h1 h2; exact ⟨h1, h2⟩
  | succ n ih =>
    intro page st h1 h2
    unfold gpPages
    rcases hfp : fetch page with m | _ | pg <;> simp only []
    · exact ⟨h1, h2⟩
    · exact ⟨h1, h2⟩
    · have hfold := gpFold_preserves numOf pg.passes st id e h1 h2
      rcases htok : getNextPageToken pg.nextPageToken with _ | tk <;>
        simp only []
      · exact hfold
      · exact ih (page + 1) _ hfold.1 hfold.2

/-- C5: the game-pass recording discipline — a pass changes the stage state
only when it has an unseen finite numeric id, is flagged for sale and has a
strictly positive parsed price, in which case it is recorded with the
fallback name and type-id 34 (the full characterization); every entry of the
stage's bucket has asset type "GAMEPASS", type-id 34 and positive price; a
recorded entry is never changed by later pages or universes (first occurrence
wins, across pages and universes); and the display name falls back through
name → displayName → "Game Pass {id}", skipping blank strings. -/
theorem C5_gamepass_recording :
    (∀ (numOf : String → Option Rat) (st : GpSt) (gp : GamePassRaw),
      gpStep numOf st gp = st ∨
      ∃ id price, gp.id = JsVal.num id ∧ id ∉ st.seen ∧
        gp.isForSale = JsVal.boolean true ∧
        parseRobuxPrice gp.price numOf = some price ∧ 0 < price ∧
        gpStep numOf st gp =
          ⟨id :: st.seen,
           objSet st.bucket id
             (makeAssetEntry (gpName gp id) "GAMEPASS" 34 price),
           st.errs⟩) ∧
    (∀ (numOf : String → Option Rat) (fetchU : Rat → Nat → UpJson GpPage)
        (maxPages : Nat) (unis : List Rat),
      ∀ p ∈ (gamepassStage numOf fetchU maxPages unis).bucket,
        p.2.AssetType = "GAMEPASS" ∧ p.2.AssetTypeId = 34 ∧
          0 < p.2.AssetPrice) ∧
    (∀ (numOf : String → Option Rat) (fetchU : Rat → Nat → UpJson GpPage)
        (maxPages : Nat) (unis : List Rat) (st : GpSt) (id : Rat)
        (e : AssetEntry),
      (∀ p ∈ st.bucket, p.1 ∈ st.seen) → objGet st.bucket id = some e →
      objGet ((unis.foldl
        (fun s u => gpPages numOf (fetchU u) 0 maxPages s) st)).bucket id =
        some e) ∧
    (∀ gp id n, strOk gp.name = some n → gpName gp id = n) ∧
    (∀ gp id n, strOk gp.name = none → strOk gp.displayName = some n →
      gpName gp id = n) ∧
    (∀ gp id, strOk gp.name = none → strOk gp.displayName = none →
      gpName gp id = s!"Game Pass {id}") := by
  refine ⟨gpStep_characterization, ?_, ?_, ?_, ?_, ?_⟩
  · intro numOf fetchU maxPages unis
    unfold gamepassStage
    have hmain := foldlInv
      (P := fun (s : GpSt) => ∀ p ∈ s.bucket,
        p.2.AssetType = "GAMEPASS" ∧ p.2.AssetTypeId = 34 ∧ 0 < p.2.AssetPrice)
      (fun s u => gpPages numOf (fetchU u) 0 maxPages s) ?_ unis ⟨[], [], []⟩
      (by simp)
    · exact hmain
    · intro s u hs
      have : ∀ (fuel page : Nat) (st : GpSt),
          (∀ p ∈ st.bucket, p.2.AssetType = "GAMEPASS" ∧
            p.2.AssetTypeId = 34 ∧ 0 < p.2.AssetPrice) →
          ∀ p ∈ (gpPages numOf (fetchU u) page fuel st).bucket,
            p.2.AssetType = "GAMEPASS" ∧ p.2.AssetTypeId = 34 ∧
              0 < p.2.AssetPrice := by
        intro fuel
        induction fuel with
        | zero => intro page st h; exact h
        | succ n ih =>
          intro page st h
          unfold gpPages
          rcases hfp : fetchU u page with m | _ | pg <;> simp only []
          · exact h
          · exact h
          · have hfold : ∀ p ∈ (pg.passes.foldl (gpStep numOf) st).bucket,
                p.2.AssetType = "GAMEPASS" ∧ p.2.AssetTypeId = 34 ∧
                  0 < p.2.AssetPrice := by
              refine foldlInv
                (P := fun (s' : GpSt) => ∀ p ∈ s'.bucket,
                  p.2.AssetType = "GAMEPASS" ∧ p.2.AssetTypeId = 34 ∧
                    0 < p.2.AssetPrice)
                (gpStep numOf) ?_ pg.passes st h
              intro s' gp hs' p hp
              rcases gpStep_characterization numOf s' gp with hc |
                  ⟨id, price, _, _, _, _, hpos, hc⟩
              · rw [hc] at hp
                exact hs' p hp
              · rw [hc] at hp
                rcases objSet_mem s'.bucket id _ p hp with h' | h'
                · exact hs' p h'
                · subst h'
                  exact ⟨rfl, rfl, hpos⟩
            rcases htok : getNextPageToken pg.nextPageToken with _ | tk <;>
              simp only []
            · exact hfold
            · exact ih (page + 1) _ hfold
      exact this maxPages 0 s hs
  · intro numOf fetchU maxPages unis st id e hsub he
    have := foldlInv
      (P := fun (s : GpSt) => (∀ p ∈ s.bucket, p.1 ∈ s.seen) ∧
        objGet s.bucket id = some e)
      (fun s u => gpPages numOf (fetchU u) 0 maxPages s) ?_ unis st ⟨hsub, he⟩
    · exact this.2
    · intro s u ⟨h1, h2⟩
      exact gpPages_preserves numOf (fetchU u) id e maxPages 0 s h1 h2
  · intro gp id n h
    unfold gpName
    rw [h]
  · intro gp id n h1 h2
    unfold gpName
    rw [h1, h2]
  · intro gp id h1 h2
    unfold gpName
    rw [h1, h2]

/-- A for-sale pass used by the C5 witness. -/
def c5Pass : GamePassRaw :=
  ⟨.num 7, .boolean true, .num 100, .str "VIP", .undef⟩

/-- A second occurrence of the same pass id with a different name and
price. -/
def c5PassDup : GamePassRaw :=
  ⟨.num 7, .boolean true, .num 55, .str "VIP v2", .undef⟩

/-- Witness for C5 at concrete inputs: the characterization applied to a
recordable pass, and first-occurrence-wins applied to a state already holding
id 7 while a later universe page offers a duplicate. -/
theorem C5_gamepass_recording_witness :
    (gpStep (fun _ => none) ⟨[], [], []⟩ c5Pass = ⟨[], [], []⟩ ∨
      ∃ id price, c5Pass.id = JsVal.num id ∧ id ∉ ([] : List Rat) ∧
        c5Pass.isForSale = JsVal.boolean true ∧
        parseRobuxPrice c5Pass.price (fun _ => none) = some price ∧
        0 < price ∧
        gpStep (fun _ => none) ⟨[], [], []⟩ c5Pass =
          ⟨[id],
           objSet [] id (makeAssetEntry (gpName c5Pass id) "GAMEPASS" 34 price),
           []⟩) ∧
    objGet (([42] : List Rat).foldl
        (fun s _ => gpPages (fun _ => none)
          (fun _ => UpJson.ok ⟨[c5PassDup], none⟩) 0 10 s)
        ⟨[7], [(7, makeAssetEntry "VIP" "GAMEPASS" 34 100)], []⟩).bucket 7 =
      some (makeAssetEntry "VIP" "GAMEPASS" 34 100) :=
  ⟨C5_gamepass_recording.1 (fun _ => none) ⟨[], [], []⟩ c5Pass,
   C5_gamepass_recording.2.2.1 (fun _ => none)
     (fun _ => fun _ => UpJson.ok ⟨[c5PassDup], none⟩) 10 [42]
     ⟨[7], [(7, makeAssetEntry "VIP" "GAMEPASS" 34 100)], []⟩ 7
     (makeAssetEntry "VIP" "GAMEPASS" 34 100) (by decide) (by decide)⟩

-- ---- C7: creator-type fallback ----

/-- A for-sale tracked item whose creator-type is an unrecognized string and
whose creator-target id equals the target user. -/
def c7Item : CatalogItem :=
  ⟨.num 5, .undef, .num 10, .undef, .str "Tee", .num 7, .str "Robot"⟩

/-- Lookup table tracking the item of the C7 counterexample. -/
def c7Lookup : List (Rat × String) := [(5, "CLASSIC_TSHIRT")]

/-- Counterexample to C7 as stated: an item whose creator-type encoding is
unrecognized (the string "Robot" — neither a recognized User nor Group
encoding) is skipped outright by the pipeline even though it is for sale,
tracked, and its creator-target id equals the target user id: no group probe
is enqueued and the item is not included, where the claim requires a probe
(and, with the id equal to the target user, inclusion). -/
theorem C7_counterexample_unrecognized_string_skipped :
    normalizeCatalogCreatorType (JsVal.str "Robot") = none ∧
    isCatalogForSale (fun _ => none) c7Item = true ∧
    jsNumberOf c7Item.creatorTargetId (fun _ => none) = some 7 ∧
    catalogItemSync (fun _ => none) 7 c7Lookup
      ([("CLASSIC_TSHIRT", [])], []) c7Item =
      ([("CLASSIC_TSHIRT", [])], []) := by
  decide

/-- Only a creator-type of unrecognized normalization `none` short-circuits
the item. -/
theorem catalogItemSync_skip_none (numOf : String → Option Rat)
    (userId : Int) (lookup : List (Rat × String))
    (acc : DataObj × List Deferred) (it : CatalogItem)
    (h : normalizeCatalogCreatorType it.creatorType = none) :
    catalogItemSync numOf userId lookup acc it = acc := by
  unfold catalogItemSync
  repeat' split
  all_goals first | rfl | simp_all

/-- C7 as amended: only finite numeric creator-type encodings other than 1 and
2 are treated as ambiguous — they normalize to `Unknown` and, when the item
passes the shape/for-sale/price filters and the creator-target id is a
positive finite number, a group probe is enqueued; the probe applies the Group
rule when an owner resolves and falls back to the User rule (the probed id
must equal the target user) when it does not; an unrecognized string encoding
normalizes to `none` and the item is skipped without any probe. -/
theorem C7_creator_fallback_amended :
    (∀ q : Rat, ¬ q = 1 → ¬ q = 2 →
      normalizeCatalogCreatorType (JsVal.num q) = some CreatorNorm.unknown) ∧
    (∀ s : String, ¬ jsToLower (jsTrim s) = "group" →
      ¬ jsToLower (jsTrim s) = "user" →
      normalizeCatalogCreatorType (JsVal.str s) = none) ∧
    (∀ (numOf : String → Option Rat) (userId : Int)
        (lookup : List (Rat × String)) (acc : DataObj × List Deferred)
        (it : CatalogItem),
      normalizeCatalogCreatorType it.creatorType = none →
      catalogItemSync numOf userId lookup acc it = acc) ∧
    (∀ (numOf : String → Option Rat) (userId : Int)
        (lookup : List (Rat × String)) (acc : DataObj × List Deferred)
        (it : CatalogItem) (aid mid price : Rat) (invKey : String),
      it.id = JsVal.num aid → 0 < aid →
      objGet lookup aid = some invKey →
      isCatalogForSale numOf it = true →
      parseRobuxPrice it.price numOf = some price → 0 < price →
      normalizeCatalogCreatorType it.creatorType = some CreatorNorm.unknown →
      jsNumberOf it.creatorTargetId numOf = some mid → 0 < mid →
      catalogItemSync numOf userId lookup acc it =
        (acc.1, acc.2 ++
          [⟨invKey, aid,
            makeAssetEntry
              (match strOk it.name with
                | some n => n
                | none => s!"Asset {aid}")
              invKey
              (if invKey = "CLASSIC_TSHIRT" then 2
                else if invKey = "CLASSIC_SHIRT" then 11 else 12)
              price,
            mid, true⟩])) ∧
    (∀ (groupOwner : Rat → UpJson (Option Int)) (userId : Int) (st : EState)
        (d : Deferred) (ow : Int), d.isUnknown = true →
      (getGroupOwner groupOwner st.cache d.probeId).1 = some ow →
      (deferredStep groupOwner userId st d).data =
        if ow = userId then dataWrite st.data d.invKey d.assetId d.entry
        else st.data) ∧
    (∀ (groupOwner : Rat → UpJson (Option Int)) (userId : Int) (st : EState)
        (d : Deferred), d.isUnknown = true →
      (getGroupOwner groupOwner st.cache d.probeId).1 = none →
      (deferredStep groupOwner userId st d).data =
        if d.probeId = (userId : Rat) then
          dataWrite st.data d.invKey d.assetId d.entry
        else st.data) := by
  refine ⟨?_, ?_, catalogItemSync_skip_none, ?_, ?_, ?_⟩
  · intro q h1 h2
    simp [normalizeCatalogCreatorType, h1, h2]
  · intro s h1 h2
    simp [normalizeCatalogCreatorType, h1, h2]
  · intro numOf userId lookup acc it aid mid price invKey hid hpos hlk hsale
      hprice hppos hnorm hmid hmpos
    have h1 : ¬ aid ≤ 0 := not_le.mpr hpos
    have h2 : ¬ price ≤ 0 := not_le.mpr hppos
    have h3 : ¬ mid ≤ 0 := not_le.mpr hmpos
    simp [catalogItemSync, hid, hlk, hprice, hnorm, hmid, h1, h2, h3, hsale]
  · intro groupOwner userId st d ow hd hg
    simp only [deferredStep, hg]
    split
    · rfl
    · rfl
  · intro groupOwner userId st d hd hg
    simp only [deferredStep, hg, hd]
    by_cases hp : d.probeId = (userId : Rat)
    · simp [hp]
    · simp [hp]

/-- An item with an ambiguous numeric creator-type (3) targeting id 9,
used by the C7 witness. -/
def c7UnknownItem : CatalogItem :=
  ⟨.num 5, .undef, .num 10, .undef, .str "Tee", .num 9, .num 3⟩

/-- Witness for C7 (amended) at concrete inputs: the ambiguous numeric item
enqueues a deferred probe; and an unresolved probe falls back to the User
rule, including the entry because the probed id equals the target user. -/
theorem C7_creator_fallback_amended_witness :
    catalogItemSync (fun _ => none) 7 c7Lookup
      ([("CLASSIC_TSHIRT", [])], []) c7UnknownItem =
      ([("CLASSIC_TSHIRT", [])],
       [⟨"CLASSIC_TSHIRT", 5, makeAssetEntry "Tee" "CLASSIC_TSHIRT" 2 10, 9,
         true⟩]) ∧
    (deferredStep (fun _ => UpJson.nullJson) 7
        ⟨[("CLASSIC_TSHIRT", [])], [], []⟩
        ⟨"CLASSIC_TSHIRT", 5, makeAssetEntry "Tee" "CLASSIC_TSHIRT" 2 10, 7,
          true⟩).data =
      dataWrite [("CLASSIC_TSHIRT", [])] "CLASSIC_TSHIRT" 5
        (makeAssetEntry "Tee" "CLASSIC_TSHIRT" 2 10) := by
  constructor
  · have h := C7_creator_fallback_amended.2.2.2.1 (fun _ => none) 7 c7Lookup
      ([("CLASSIC_TSHIRT", [])], []) c7UnknownItem 5 9 10 "CLASSIC_TSHIRT"
      rfl (by decide) (by decide) (by decide) (by decide) (by decide)
      (by decide) (by decide) (by decide)
    exact h.trans (by decide)
  · have h := C7_creator_fallback_amended.2.2.2.2.2 (fun _ => UpJson.nullJson)
      7 ⟨[("CLASSIC_TSHIRT", [])], [], []⟩
      ⟨"CLASSIC_TSHIRT", 5, makeAssetEntry "Tee" "CLASSIC_TSHIRT" 2 10, 7,
        true⟩ rfl (by decide)
    refine h.trans ?_
    rw [if_pos (by decide)]

-- ---- C6: CSRF negotiation ----

/-- Trace for the C6 counterexample: attempt 1 answers 403 with a fresh token,
the in-attempt CSRF retry answers 429 (retryable), attempt 2 succeeds. -/
def c6Trace : Nat → PostAttempt Nat :=
  fun a =>
    if a = 1 then
      ⟨.resp 403 (some "T") ⟨true, true, []⟩, .resp 429 none ⟨true, true, []⟩⟩
    else ⟨.resp 200 none ⟨true, true, [5]⟩, .exn⟩

/-- Counterexample to C6 as stated: after the single CSRF retry the response
is 429 — an outcome other than success — yet the batch is not treated as a
terminal failure: the shared backoff retry kicks in and the call returns the
second attempt's data with no fault recorded. -/
theorem C6_counterexample_retryable_after_csrf :
    (c6Trace 1).first = PostOut.resp 403 (some "T") ⟨true, true, []⟩ ∧
    (c6Trace 1).second = PostOut.resp 429 none ⟨true, true, []⟩ ∧
    isRetryableStatus 429 = true ∧
    catalogPostItemsDetails c6Trace none =
      ⟨some [5], some "T", [none, some "T", some "T"], none⟩ := by
  decide

/-- One loop iteration whose first POST answers 403 with a fresh non-empty
token differing from the cached one: the token is cached and the POST
reissued exactly once with it attached, and the reissued response flows into
the ordinary classification — success parses, a retryable status consumes a
regular retry attempt (with the refreshed token kept), and anything else
(including a second 403) is a terminal fault returning null. -/
theorem catPostLoop_csrf_refresh_step (trace : Nat → PostAttempt ι)
    (attempt fuel : Nat) (cached hdrTok : Option String) (t : String)
    (b : CatBody ι) (s2 : Nat) (tok2 : Option String) (b2 : CatBody ι)
    (h1 : (trace attempt).first = .resp 403 (some t) b)
    (ht : ¬ t = "") (hc : ¬ cached = some t)
    (h2 : (trace attempt).second = .resp s2 tok2 b2) :
    catPostLoop trace attempt (fuel + 1) cached hdrTok =
      if 200 ≤ s2 ∧ s2 < 300 then
        if ¬ b2.jsonOk then
          ⟨none, some t, [hdrTok, some t],
            some "Catalog returned non-JSON response"⟩
        else if ¬ b2.hasDataArr then
          ⟨none, some t, [hdrTok, some t],
            some "Catalog response missing data[]"⟩
        else ⟨some b2.items, some t, [hdrTok, some t], none⟩
      else if isRetryableStatus s2 = true ∧ ¬ fuel = 0 then
        ⟨(catPostLoop trace (attempt + 1) fuel (some t) (some t)).data,
         (catPostLoop trace (attempt + 1) fuel (some t) (some t)).cachedOut,
         hdrTok :: some t ::
           (catPostLoop trace (attempt + 1) fuel (some t) (some t)).sentTokens,
         (catPostLoop trace (attempt + 1) fuel (some t) (some t)).fault⟩
      else ⟨none, some t, [hdrTok, some t], some "Catalog upstream error"⟩ := by
  have ht' : (t == "") = false := beq_eq_false_iff_ne.mpr ht
  have hc' : (cached == some t) = false := beq_eq_false_iff_ne.mpr hc
  conv_lhs => unfold catPostLoop
  simp only [h1, h2, ht', hc', beq_self_eq_true, Bool.not_false,
    Bool.and_self, Bool.true_and, if_true, Bool.and_true]
  norm_num

/-- A 403 whose response token is absent, empty, or equal to the cached token
fires no CSRF retry: the single POST's 403 is non-retryable and terminal. -/
theorem catPostLoop_csrf_no_refresh_step (trace : Nat → PostAttempt ι)
    (attempt fuel : Nat) (cached hdrTok : Option String)
    (tokOpt : Option String) (b : CatBody ι)
    (h1 : (trace attempt).first = .resp 403 tokOpt b)
    (hno : tokOpt = none ∨ tokOpt = some "" ∨ cached = tokOpt) :
    catPostLoop trace attempt (fuel + 1) cached hdrTok =
      ⟨none, cached, [hdrTok], some "Catalog upstream error"⟩ := by
  conv_lhs => unfold catPostLoop
  rcases hno with rfl | rfl | rfl
  · simp [h1, isRetryableStatus]
  · simp [h1, isRetryableStatus]
  · rcases cached with _ | ct <;> simp [h1, isRetryableStatus]

/-- C6 as amended: the catalog POST performs at most one CSRF retry per
attempt — on a 403 carrying a fresh non-empty token different from the cached
one, the token is cached and the POST reissued exactly once with it attached
(both dispatches of the attempt are visible in the token trace); a 403
without such a token is terminal with a single dispatch; after the CSRF
retry, any non-retryable non-2xx outcome — a second 403 in particular — is a
terminal failure recording a fault and returning null, while a retryable
status flows into the shared backoff retry (max 4 attempts) with the
refreshed token kept; and a failed batch leaves the aggregator processing the
next batch. -/
theorem C6_csrf_negotiation_amended :
    (∀ (trace : Nat → PostAttempt Nat) (attempt fuel : Nat)
        (cached hdrTok : Option String) (t : String) (b : CatBody Nat)
        (s2 : Nat) (tok2 : Option String) (b2 : CatBody Nat),
      (trace attempt).first = .resp 403 (some t) b → ¬ t = "" →
      ¬ cached = some t → (trace attempt).second = .resp s2 tok2 b2 →
      ¬ (200 ≤ s2 ∧ s2 < 300) → isRetryableStatus s2 = false →
      catPostLoop trace attempt (fuel + 1) cached hdrTok =
        ⟨none, some t, [hdrTok, some t], some "Catalog upstream error"⟩) ∧
    (∀ (trace : Nat → PostAttempt Nat) (attempt fuel : Nat)
        (cached hdrTok : Option String) (t : String) (b : CatBody Nat)
        (s2 : Nat) (tok2 : Option String) (b2 : CatBody Nat),
      (trace attempt).first = .resp 403 (some t) b → ¬ t = "" →
      ¬ cached = some t → (trace attempt).second = .resp s2 tok2 b2 →
      200 ≤ s2 → s2 < 300 → b2.jsonOk = true → b2.hasDataArr = true →
      catPostLoop trace attempt (fuel + 1) cached hdrTok =
        ⟨some b2.items, some t, [hdrTok, some t], none⟩) ∧
    (∀ (trace : Nat → PostAttempt Nat) (attempt fuel : Nat)
        (cached hdrTok : Option String) (t : String) (b : CatBody Nat)
        (s2 : Nat) (tok2 : Option String) (b2 : CatBody Nat),
      (trace attempt).first = .resp 403 (some t) b → ¬ t = "" →
      ¬ cached = some t → (trace attempt).second = .resp s2 tok2 b2 →
      ¬ (200 ≤ s2 ∧ s2 < 300) → isRetryableStatus s2 = true → ¬ fuel = 0 →
      catPostLoop trace attempt (fuel + 1) cached hdrTok =
        ⟨(catPostLoop trace (attempt + 1) fuel (some t) (some t)).data,
         (catPostLoop trace (attempt + 1) fuel (some t) (some t)).cachedOut,
         hdrTok :: some t ::
           (catPostLoop trace (attempt + 1) fuel (some t) (some t)).sentTokens,
         (catPostLoop trace (attempt + 1) fuel (some t) (some t)).fault⟩) ∧
    (∀ (trace : Nat → PostAttempt Nat) (attempt fuel : Nat)
        (cached hdrTok : Option String) (tokOpt : Option String)
        (b : CatBody Nat),
      (trace attempt).first = .resp 403 tokOpt b →
      (tokOpt = none ∨ tokOpt = some "" ∨ cached = tokOpt) →
      catPostLoop trace attempt (fuel + 1) cached hdrTok =
        ⟨none, cached, [hdrTok], some "Catalog upstream error"⟩) ∧
    (∀ (numOf : String → Option Rat)
        (catBatch : Nat → UpJson (List CatalogItem))
        (groupOwner : Rat → UpJson (Option Int)) (userId : Int)
        (lookup : List (Rat × String)) (st : EState) (m : String)
        (items : List CatalogItem),
      catBatch 0 = .failed m → catBatch 1 = .ok items →
      catalogStage numOf catBatch groupOwner userId lookup 2 st =
        processBatch numOf groupOwner userId lookup
          { st with errs := st.errs ++ [⟨"catalog.details", m⟩] } items) := by
  refine ⟨?_, ?_, ?_, catPostLoop_csrf_no_refresh_step, ?_⟩
  · intro trace attempt fuel cached hdrTok t b s2 tok2 b2 h1 ht hc h2 hn2 hnr
    rw [catPostLoop_csrf_refresh_step trace attempt fuel cached hdrTok t b s2
      tok2 b2 h1 ht hc h2]
    rw [if_neg hn2, if_neg (by simp [hnr])]
  · intro trace attempt fuel cached hdrTok t b s2 tok2 b2 h1 ht hc h2 hlo hhi
      hjson hdata
    rw [catPostLoop_csrf_refresh_step trace attempt fuel cached hdrTok t b s2
      tok2 b2 h1 ht hc h2]
    rw [if_pos ⟨hlo, hhi⟩, if_neg (by simp [hjson]), if_neg (by simp [hdata])]
  · intro trace attempt fuel cached hdrTok t b s2 tok2 b2 h1 ht hc h2 hn2 hr
      hfuel
    rw [catPostLoop_csrf_refresh_step trace attempt fuel cached hdrTok t b s2
      tok2 b2 h1 ht hc h2]
    rw [if_neg hn2, if_pos ⟨hr, hfuel⟩]
  · intro numOf catBatch groupOwner userId lookup st m items h0 h1
    unfold catalogStage
    have : List.range 2 = [0, 1] := by decide
    rw [this]
    simp [h0, h1]

/-- Three-attempt trace for the C6 witness: a fresh-token 403 whose CSRF
retry answers a second 403. -/
def c6Trace403 : Nat → PostAttempt Nat :=
  fun _ => ⟨.resp 403 (some "T") ⟨true, true, []⟩,
            .resp 403 (some "U") ⟨true, true, []⟩⟩

/-- Witness for C6 (amended) at concrete inputs: a second 403 after the one
CSRF retry is terminal — fault recorded, null returned, both dispatches of
the attempt visible (the second carrying the fresh token). -/
theorem C6_csrf_negotiation_amended_witness :
    catPostLoop c6Trace403 1 (3 + 1) none none =
      ⟨none, some "T", [none, some "T"], some "Catalog upstream error"⟩ ∧
    catPostLoop c6Trace403 1 (3 + 1) (some "T") none =
      ⟨none, some "T", [none], some "Catalog upstream error"⟩ :=
  ⟨C6_csrf_negotiation_amended.1 c6Trace403 1 3 none none "T" ⟨true, true, []⟩
      403 (some "U") ⟨true, true, []⟩ rfl (by decide) (by decide) rfl
      (by omega) (by decide),
   C6_csrf_negotiation_amended.2.2.2.1 c6Trace403 1 3 (some "T") none
      (some "T") ⟨true, true, []⟩ rfl (Or.inr (Or.inr rfl))⟩

-- ---- C9: the concurrency limiter ----

/-- The submission order carried by an event sequence. -/
def submittedOf (events : List LimEvent) : List Nat :=
  events.filterMap (fun e => match e with | .submit j => some j | _ => none)

/-- Convenience form of `List.range'_concat` for step 1. -/
theorem range'_concat_one (s n : Nat) :
    List.range' s (n + 1) = List.range' s n ++ [s + n] := by
  have h := @List.range'_concat 1 s n
  simpa using h

/-- `next()` never raises the active count above the limit. -/
theorem limNext_cap (limit : Nat) (s : LimState ε α)
    (h : s.running.length ≤ limit) :
    (limNext limit s).running.length ≤ limit := by
  unfold limNext
  split
  · exact h
  · split
    · exact h
    · rename_i hlt _ _ _
      simp only [List.length_append, List.length_cons, List.length_nil]
      omega

/-- `next()` moves at most the queue's head to the running set, preserving
the concatenation `admitted ++ queue`. -/
theorem limNext_adm_queue (limit : Nat) (s : LimState ε α) :
    (limNext limit s).admitted ++ (limNext limit s).queue =
      s.admitted ++ s.queue := by
  unfold limNext
  split
  · rfl
  · split
    · rfl
    · rename_i j rest heq
      simp [heq]

/-- C9 invariant: the active count never exceeds the limit. -/
theorem limRun_cap (limit : Nat) (jobs : Nat → Except ε α)
    (events : List LimEvent) :
    (limRun limit jobs events).running.length ≤ limit := by
  unfold limRun
  refine foldlInv (P := fun (s : LimState ε α) => s.running.length ≤ limit)
    _ ?_ events (limInit ε α) (by simp [limInit])
  intro s e hs
  rcases e with j | j
  · show (limSubmit limit s j).running.length ≤ limit
    unfold limSubmit
    exact limNext_cap limit _ (by simpa using hs)
  · show (limComplete limit jobs s j).running.length ≤ limit
    unfold limComplete
    split
    · refine limNext_cap limit _ ?_
      refine le_trans ?_ hs
      simpa using List.Sublist.length_le (List.erase_sublist j s.running)
    · exact hs

/-- C9 invariant: admission preserves submission order — at every point the
jobs admitted so far followed by the still-queued jobs is exactly the
submission sequence. -/
theorem limRun_fifo (limit : Nat) (jobs : Nat → Except ε α)
    (events : List LimEvent) :
    (limRun limit jobs events).admitted ++ (limRun limit jobs events).queue =
      submittedOf events := by
  suffices h : ∀ (evts : List LimEvent) (s : LimState ε α),
      (evts.foldl (fun s e =>
        match e with
        | .submit j => limSubmit limit s j
        | .complete j => limComplete limit jobs s j) s).admitted ++
      (evts.foldl (fun s e =>
        match e with
        | .submit j => limSubmit limit s j
        | .complete j => limComplete limit jobs s j) s).queue =
        s.admitted ++ s.queue ++ submittedOf evts by
    simpa [limRun, limInit] using h events (limInit ε α)
  intro evts
  induction evts with
  | nil => intro s; simp [submittedOf]
  | cons e rest ih =>
    intro s
    rcases e with j | j
    · simp only [List.foldl_cons, ih, submittedOf, List.filterMap_cons]
      unfold limSubmit
      rw [limNext_adm_queue]
      simp [submittedOf, List.append_assoc]
    · simp only [List.foldl_cons, ih, submittedOf, List.filterMap_cons]
      unfold limComplete
      split
      · rw [limNext_adm_queue]
      · rfl

/-- State after submitting jobs `0, …, n-1` through an idle limiter: the first
`min limit n` run, the rest queue. -/
theorem limSubmit_phase (limit : Nat) (hl : 1 ≤ limit) :
    ∀ n : Nat, (List.range n).foldl (limSubmit limit)
        (limInit ε α) =
      ⟨List.range' 0 (min limit n), List.range' (min limit n) (n - min limit n),
       List.range (min limit n), []⟩ := by
  intro n
  induction n with
  | zero => simp [limInit, Nat.min_zero]
  | succ n ih =>
    rw [List.range_succ, List.foldl_append, ih]
    simp only [List.foldl_cons, List.foldl_nil]
    unfold limSubmit limNext
    rcases Nat.lt_or_ge n limit with hlt | hge
    · have hmin : min limit n = n := by omega
      have hmin' : min limit (n + 1) = n + 1 := by omega
      simp only [hmin, hmin', Nat.sub_self, List.range'_zero, List.nil_append]
      rw [if_neg (by simp only [List.length_range']; omega)]
      have h0 : List.range' 0 n ++ [n] = List.range' 0 (n + 1) := by
        rw [range'_concat_one]
        simp
      have h1 : List.range n ++ [n] = List.range (n + 1) :=
        (List.range_succ n).symm
      simp [h0, h1, List.range'_zero]
    · have hmin : min limit n = limit := by omega
      have hmin' : min limit (n + 1) = limit := by omega
      simp only [hmin, hmin']
      rw [if_pos (by simp [List.length_range'])]
      have h1 : List.range' limit (n - limit) ++ [n] =
          List.range' limit (n + 1 - limit) := by
        rw [show n + 1 - limit = (n - limit) + 1 by omega, range'_concat_one]
        congr 2
        omega
      simp [h1]

/-- Fair draining settles everything: from a saturated intermediate state, the
drain loop completes the earliest-admitted running job each round, admits the
queue in order, and ends with every job settled (with its own outcome) and
nothing running or queued. -/
theorem limDrain_phase (limit : Nat) (hl : 1 ≤ limit)
    (jobs : Nat → Except ε α) (n : Nat) :
    ∀ (fuel m k : Nat), m ≤ k → k ≤ n → k - m ≤ limit →
      (k < n → k - m = limit) → n - m ≤ fuel →
      limDrain limit jobs fuel
        ⟨List.range' m (k - m), List.range' k (n - k), List.range k,
         (List.range m).map (fun i => (i, jobs i))⟩ =
      ⟨[], [], List.range n, (List.range n).map (fun i => (i, jobs i))⟩ := by
  intro fuel
  induction fuel with
  | zero =>
    intro m k hmk hkn hcap hsat hfuel
    have hm : m = n := by omega
    have hk : k = n := by omega
    rw [hm, hk]
    simp [limDrain, List.range'_zero]
  | succ fuel ih =>
    intro m k hmk hkn hcap hsat hfuel
    by_cases hrun : k - m = 0
    · have hk : k = n := by
        by_contra hc
        have := hsat (by omega)
        omega
      have hm : m = k := by omega
      rw [hm, hk]
      simp [limDrain, List.range'_zero]
    · have hkm : k - m = (k - m - 1) + 1 := by omega
      unfold limDrain
      rw [hkm, List.range'_succ]
      simp only []
      unfold limComplete
      rw [if_pos (by simp)]
      rw [List.erase_cons_head]
      unfold limNext
      simp only [List.length_range']
      rw [if_neg (by omega)]
      have hset : (List.range m).map (fun i => (i, jobs i)) ++ [(m, jobs m)] =
          (List.range (m + 1)).map (fun i => (i, jobs i)) := by
        rw [List.range_succ, List.map_append]
        rfl
      by_cases hq : k = n
      · have hnk : n - k = 0 := by omega
        rw [hnk]
        simp only [List.range'_zero]
        have := ih (m + 1) k (by omega) (by omega) (by omega) (by omega)
          (by omega)
        rw [show k - (m + 1) = k - m - 1 from by omega] at this
        simpa [hset, hnk, List.range'_zero] using this
      · have hkn' : k < n := by omega
        rw [show n - k = (n - k - 1) + 1 from by omega, List.range'_succ]
        simp only []
        have hrc : List.range' (m + 1) (k - m - 1) ++ [k] =
            List.range' (m + 1) (k - m) := by
          rw [show k - m = (k - m - 1) + 1 from by omega, range'_concat_one]
          congr 2
          omega
        have hadm : List.range k ++ [k] = List.range (k + 1) :=
          (List.range_succ k).symm
        have := ih (m + 1) (k + 1) (by omega) (by omega) (by omega)
          (by omega) (by omega)
        rw [show k + 1 - (m + 1) = k - m from by omega] at this
        rw [show n - (k + 1) = n - k - 1 from by omega] at this
        simpa [hset, hrc, hadm] using this

/-- C9: the limiter admits at most `limit` jobs simultaneously (5 where the
aggregator constructs it); admission follows submission order (FIFO); and
with `limit ≥ 1`, submitting `n` jobs and letting every admitted job complete
settles each job exactly once with its own untransformed outcome, in
submission order, leaving nothing running or queued — no job starves. -/
theorem C9_limiter :
    DEFAULTS_concurrency = 5 ∧
    (∀ (limit : Nat) (jobs : Nat → Except String Nat) events,
      (limRun limit jobs events).running.length ≤ limit) ∧
    (∀ (limit : Nat) (jobs : Nat → Except String Nat) events,
      (limRun limit jobs events).admitted ++ (limRun limit jobs events).queue =
        submittedOf events) ∧
    (∀ (limit : Nat) (jobs : Nat → Except String Nat) (n : Nat), 1 ≤ limit →
      (limRunAll limit jobs n).settled =
        (List.range n).map (fun j => (j, jobs j)) ∧
      (limRunAll limit jobs n).running = [] ∧
      (limRunAll limit jobs n).queue = []) := by
  refine ⟨rfl, limRun_cap, limRun_fifo, ?_⟩
  intro limit jobs n hl
  unfold limRunAll
  rw [limSubmit_phase limit hl n]
  have hmin : min limit n ≤ n := Nat.min_le_right _ _
  have := limDrain_phase limit hl jobs n n 0 (min limit n) (by omega)
    hmin (by omega) (fun h => by omega) (by omega)
  simp only [Nat.sub_zero, List.range_zero, List.map_nil] at this
  rw [this]
  exact ⟨rfl, rfl, rfl⟩

/-- Witness for C9 at concrete inputs: limit 5 (the aggregator's default), 7
jobs of which one rejects — all settle in order with their own outcomes. -/
theorem C9_limiter_witness :
    (limRunAll 5 (fun j => if j = 3 then Except.error "boom" else Except.ok j)
        7).settled =
      (List.range 7).map
        (fun j => (j, if j = 3 then Except.error "boom" else Except.ok j)) ∧
    (limRunAll 5
        (fun j => if j = 3 then Except.error "boom" else Except.ok j)
        7).running = [] :=
  ⟨(C9_limiter.2.2.2 5 (fun j => if j = 3 then Except.error "boom"
      else Except.ok j) 7 (by decide)).1,
   (C9_limiter.2.2.2 5 (fun j => if j = 3 then Except.error "boom"
      else Except.ok j) 7 (by decide)).2.1⟩

end DonationAsset
